import Mathlib

/-!
# OEE chart hook (`assets/js/hooks/oee_chart.js`)

A shallow embedding of the LiveView hook `OEEChart` and a verification of its
update protocol.

* The hook object (`this`) is the record `Hook`: the field `chart` is `this.chart`
  (`none` while it is `undefined`), and `log` is the sequence of calls the hook has
  issued to the rendering engine (`new Chart`, `chart.update`, `chart.destroy`).
  The engine itself is outside the hook; the embedding keeps the configuration
  object the hook reads and writes (`chart.config.type`, `chart.data`,
  `chart.options`) and records the calls.
* A hook method returns an `Outcome`: the hook after the call and the exception
  that left the method, if any.  A JavaScript exception does not roll back the
  assignments made before it, so the state is kept on both paths.
* The platform built-ins `JSON.parse` and `new Date(v)` are parameters
  (`Builtins`); both can throw.  `ecma` is a concrete instance used for the concrete
  runs.
* `updateChart` computes with IEEE doubles.  The values it computes with are
  differences of integral time values and one quotient by `86400000`, compared to
  `7` and `1`; the embedding computes them exactly in `ℚ`, which gives the same
  comparisons.
-/

namespace OEEChart

/-! ## Values -/

/-- Exceptions that can leave the hook: `SyntaxError` (thrown by `JSON.parse`) and
`TypeError` (a property read on `null`/`undefined`, a call of a non-function, a
`new Date(v)` whose argument cannot be converted to a primitive). -/
inductive JsError where
  | malformedJson
  | typeError
  deriving DecidableEq, Repr

/-- Values `JSON.parse` can return.  A number is kept as the decimal
`mantissa * 10 ^ exponent` its text denotes; the double that `JSON.parse` rounds it to
is computed where a result depends on it (`nearestDouble`). -/
inductive Json where
  | null
  | bool (b : Bool)
  | num (mantissa : Int) (exponent : Int)
  | str (s : String)
  | arr (items : List Json)
  | obj (members : List (String × Json))

/-- Time value of a `Date`: `NaN` (an invalid date) or integral milliseconds since
the epoch. -/
inductive TimeValue where
  | nan
  | ms (t : Int)
  deriving DecidableEq, Repr

/-- A `Date` object, as far as the hook uses it. -/
structure JsDate where
  time : TimeValue
  deriving DecidableEq, Repr

/-- A number computed by `updateChart`: `NaN` or a finite value. -/
inductive JsNum where
  | nan
  | fin (q : ℚ)
  deriving DecidableEq

/-- The `ToNumber` of an array element read: `undefined` gives `NaN`, a `Date` gives
its time value. -/
def toNumber : Option JsDate → JsNum
  | none => .nan
  | some d =>
    match d.time with
    | .nan => .nan
    | .ms t => .fin t

/-- The difference `a - b` of two numbers. -/
def JsNum.sub : JsNum → JsNum → JsNum
  | .fin a, .fin b => .fin (a - b)
  | _, _ => .nan

/-- The quotient `a / d` for a finite non-zero constant `d`. -/
def JsNum.div : JsNum → ℚ → JsNum
  | .fin a, d => .fin (a / d)
  | .nan, _ => .nan

/-- The comparison `a > k` for a constant `k`: false when `a` is `NaN`. -/
def JsNum.gt : JsNum → ℚ → Bool
  | .fin a, k => decide (a > k)
  | .nan, _ => false

/-- The element read `xs[i]` for an integer index: `undefined` outside `0 .. length - 1`. -/
def index {α : Type} (xs : List α) (i : Int) : Option α :=
  if i < 0 then none else xs.get? i.toNat

/-- The expression `v || d` for a `dataset` attribute: the default when the attribute is absent
or the empty string. -/
def orDefault (v : Option String) (d : String) : String :=
  match v with
  | none => d
  | some s => if s = "" then d else s

/-- The property read `i.key` for one of the keys the hook reads (`timestamp`, `oee`,
`availability`, `performance`, `quality`; none of them is inherited from a
built-in prototype): a `TypeError` on `null`, the value of the last member with
that key on an object, `undefined` on every other value. -/
def getField (i : Json) (key : String) : Except JsError (Option Json) :=
  match i with
  | .null => .error .typeError
  | .obj members => .ok (members.reverse.lookup key)
  | _ => .ok none

/-- Applies `f` to the items in order, stopping at the first exception. -/
def mapItems {α : Type} (f : Json → Except JsError α) : List Json → Except JsError (List α)
  | [] => .ok []
  | i :: rest =>
    match f i with
    | .error e => .error e
    | .ok a =>
      match mapItems f rest with
      | .error e => .error e
      | .ok as => .ok (a :: as)

/-- The call `intervals.map(f)`: only an array has `map`; on any other value the call is a
`TypeError`. -/
def arrayMap {α : Type} (intervals : Json) (f : Json → Except JsError α) :
    Except JsError (List α) :=
  match intervals with
  | .arr items => mapItems f items
  | _ => .error .typeError

/-! ## The chart configuration -/

/-- One entry of `data.datasets`. -/
structure Dataset where
  label : String
  data : List (Option Json)
  borderColor : String
  backgroundColor : String
  borderWidth : Nat
  tension : ℚ
  fill : Bool

/-- An axis title. -/
structure Title where
  display : Bool
  text : String

/-- The objects `interaction` and `plugins.tooltip`. -/
structure Interaction where
  mode : String
  intersect : Bool

/-- The object `options.scales.x`: `unit` is `time.unit`, `hourFormat` is
`time.displayFormats.hour`. -/
structure XScale where
  type : String
  unit : String
  hourFormat : String
  title : Title

/-- The object `options.scales.y`. -/
structure YScale where
  beginAtZero : Bool
  max : Nat
  title : Title

/-- The `options` object. -/
structure Options where
  responsive : Bool
  maintainAspectRatio : Bool
  interaction : Interaction
  x : XScale
  y : YScale
  legendPosition : String
  tooltip : Interaction

/-- The chart object: `type` is `config.type`, `labels` is `data.labels`. -/
structure Chart where
  type : String
  labels : List JsDate
  datasets : List Dataset
  options : Options

/-- A call issued to the rendering engine. -/
inductive EngineCall where
  | construct
  | update (mode : String)
  | destroy
  deriving DecidableEq, Repr

/-- The hook object. -/
structure Hook where
  chart : Option Chart
  log : List EngineCall

/-- The element the hook is bound to: its `dataset.intervals` and `dataset.type`
attributes (`none` when absent). -/
structure El where
  intervals : Option String
  type : Option String

/-- Result of a hook method. -/
structure Outcome where
  hook : Hook
  thrown : Option JsError

/-- The platform built-ins the hook calls.  `newDate v` is `new Date(v)` for `v` a
value read off a decoded item (`none` is `undefined`); its result `none` means that
the constructor throws.  On such a value the only exception of the constructor is the
`TypeError` of `ToPrimitive`, raised for an object or array that has no callable
conversion method, as the object decoded from `{"toString":1}`. -/
structure Builtins where
  jsonParse : String → Except JsError Json
  newDate : Option Json → Option JsDate

/-- The callback `i => new Date(i.timestamp)` of line 21: the `TypeError` of the
property read on `null`, then the `TypeError` of the constructor. -/
def timestampCallback (B : Builtins) (i : Json) : Except JsError JsDate :=
  match getField i "timestamp" with
  | .error e => .error e
  | .ok v =>
    match B.newDate v with
    | none => .error .typeError
    | some d => .ok d

/-! ## The hook -/

/-- The configuration literal of `createChart`. -/
def initialChart : Chart where
  type := "line"
  labels := []
  datasets := [
    { label := "OEE", data := [], borderColor := "rgb(99, 102, 241)",
      backgroundColor := "rgba(99, 102, 241, 0.1)", borderWidth := 2, tension := 1 / 10,
      fill := false },
    { label := "Availability", data := [], borderColor := "rgb(16, 185, 129)",
      backgroundColor := "rgba(16, 185, 129, 0.1)", borderWidth := 2, tension := 1 / 10,
      fill := false },
    { label := "Performance", data := [], borderColor := "rgb(245, 158, 11)",
      backgroundColor := "rgba(245, 158, 11, 0.1)", borderWidth := 2, tension := 1 / 10,
      fill := false },
    { label := "Quality", data := [], borderColor := "rgb(14, 165, 233)",
      backgroundColor := "rgba(14, 165, 233, 0.1)", borderWidth := 2, tension := 1 / 10,
      fill := false } ]
  options :=
    { responsive := true
      maintainAspectRatio := false
      interaction := { mode := "index", intersect := false }
      x := { type := "time", unit := "hour", hourFormat := "MMM D, HH:mm",
             title := { display := true, text := "Time" } }
      y := { beginAtZero := true, max := 100,
             title := { display := true, text := "Percentage" } }
      legendPosition := "top"
      tooltip := { mode := "index", intersect := false } }

/-- The method `createChart()`: one `new Chart(ctx, config)`; returns the chart. -/
def createChart (self : Hook) : Chart × Hook :=
  (initialChart, { self with log := self.log ++ [.construct] })

/-- The assignment `datasets[k].data = d`: a `TypeError` when `datasets[k]` is `undefined`. -/
def setData (datasets : List Dataset) (k : Nat) (d : List (Option Json)) :
    Except JsError (List Dataset) :=
  match datasets.get? k with
  | none => .error .typeError
  | some ds => .ok (datasets.set k { ds with data := d })

/-- The time unit chosen in `updateChart` from `days` (lines 122 to 132): the initial
value "hour" of `timeUnit` is overwritten on each of the three branches. -/
def timeUnitOf (days : JsNum) : String :=
  if days.gt 7 then "day"
  else if days.gt 1 then "hour"
  else "minute"

/-- The method `updateChart(timestamps, oeeData, availabilityData, performanceData,
qualityData, chartType)`. -/
def updateChart (timestamps : List JsDate)
    (oeeData availabilityData performanceData qualityData : List (Option Json))
    (chartType : String) (self : Hook) : Outcome :=
  match self.chart with
  | none => ⟨self, none⟩
  | some chart =>
    let range :=
      (toNumber (index timestamps ((timestamps.length : Int) - 1))).sub
        (toNumber (index timestamps 0))
    let days := range.div (1000 * 60 * 60 * 24)
    let timeUnit := timeUnitOf days
    let chart := if chart.type ≠ chartType then { chart with type := chartType } else chart
    let chart :=
      { chart with
        options := { chart.options with x := { chart.options.x with unit := timeUnit } } }
    let chart := { chart with labels := timestamps }
    match setData chart.datasets 0 oeeData with
    | .error e => ⟨{ self with chart := some chart }, some e⟩
    | .ok ds0 =>
      match setData ds0 1 availabilityData with
      | .error e => ⟨{ self with chart := some { chart with datasets := ds0 } }, some e⟩
      | .ok ds1 =>
        match setData ds1 2 performanceData with
        | .error e => ⟨{ self with chart := some { chart with datasets := ds1 } }, some e⟩
        | .ok ds2 =>
          match setData ds2 3 qualityData with
          | .error e => ⟨{ self with chart := some { chart with datasets := ds2 } }, some e⟩
          | .ok ds3 =>
            ⟨{ chart := some { chart with datasets := ds3 },
               log := self.log ++ [.update "none"] }, none⟩

/-- The arguments `handleUpdate` passes to `updateChart`. -/
structure UpdateArgs where
  timestamps : List JsDate
  oeeData : List (Option Json)
  availabilityData : List (Option Json)
  performanceData : List (Option Json)
  qualityData : List (Option Json)
  chartType : String

/-- Lines 18 to 25 of `handleUpdate`: decode the payload and build the five
sequences. -/
def handleUpdateArgs (B : Builtins) (el : El) : Except JsError UpdateArgs :=
  match B.jsonParse (orDefault el.intervals "[]") with
  | .error e => .error e
  | .ok intervals =>
    let chartType := orDefault el.type "line"
    match arrayMap intervals (timestampCallback B) with
    | .error e => .error e
    | .ok timestamps =>
      match arrayMap intervals (fun i => getField i "oee") with
      | .error e => .error e
      | .ok oeeData =>
        match arrayMap intervals (fun i => getField i "availability") with
        | .error e => .error e
        | .ok availabilityData =>
          match arrayMap intervals (fun i => getField i "performance") with
          | .error e => .error e
          | .ok performanceData =>
            match arrayMap intervals (fun i => getField i "quality") with
            | .error e => .error e
            | .ok qualityData =>
              .ok ⟨timestamps, oeeData, availabilityData, performanceData, qualityData,
                chartType⟩

/-- The method `handleUpdate()`. -/
def handleUpdate (B : Builtins) (el : El) (self : Hook) : Outcome :=
  match handleUpdateArgs B el with
  | .error e => ⟨self, some e⟩
  | .ok a =>
    updateChart a.timestamps a.oeeData a.availabilityData a.performanceData a.qualityData
      a.chartType self

/-- The callback `mounted()`. -/
def mounted (B : Builtins) (el : El) (self : Hook) : Outcome :=
  let (chart, self) := createChart self
  handleUpdate B el { self with chart := some chart }

/-- The callback `updated()`. -/
def updated (B : Builtins) (el : El) (self : Hook) : Outcome :=
  handleUpdate B el self

/-- The callback `destroyed()`. -/
def destroyed (self : Hook) : Outcome :=
  match self.chart with
  | some _ => ⟨{ self with log := self.log ++ [.destroy] }, none⟩
  | none => ⟨self, none⟩

/-- A lifecycle callback of the host, with the element as it is at that call. -/
inductive Call where
  | mounted (el : El)
  | updated (el : El)
  | destroyed

/-- One callback. -/
def step (B : Builtins) (c : Call) (self : Hook) : Outcome :=
  match c with
  | .mounted el => mounted B el self
  | .updated el => updated B el self
  | .destroyed => destroyed self

/-- A serialized sequence of callbacks; an exception ends its callback only, the
hook object lives on. -/
def run (B : Builtins) : List Call → Hook → Hook
  | [], self => self
  | c :: cs, self => run B cs (step B c self).hook

/-- The hook object before any callback. -/
def fresh : Hook := ⟨none, []⟩

/-! ## A concrete instance of the built-ins

`ecma.jsonParse` reads the JSON grammar (ECMA-404) and `ecma.newDate` follows the
`Date` constructor on `undefined`, `null`, booleans, numbers, strings in the date-time
interchange format, objects and arrays; see `dateParse` and `newDate` for the texts on
which an engine reads more than this instance.  The
recursive readers take a fuel argument that bounds the number of calls; the entry
point supplies more than the text can use. -/

/-- JSON whitespace. -/
def isWs (c : Char) : Bool :=
  c == ' ' || c == '\t' || c == '\n' || c == '\r'

/-- Drops leading whitespace. -/
def skipWs : List Char → List Char
  | [] => []
  | c :: cs => if isWs c then skipWs cs else c :: cs

/-- Value of a decimal digit. -/
def digitVal (c : Char) : Option Nat :=
  if '0' ≤ c ∧ c ≤ '9' then some (c.toNat - '0'.toNat) else none

/-- Value of a hexadecimal digit. -/
def hexVal (c : Char) : Option Nat :=
  if '0' ≤ c ∧ c ≤ '9' then some (c.toNat - '0'.toNat)
  else if 'a' ≤ c ∧ c ≤ 'f' then some (c.toNat - 'a'.toNat + 10)
  else if 'A' ≤ c ∧ c ≤ 'F' then some (c.toNat - 'A'.toNat + 10)
  else none

/-- Reads the longest run of decimal digits: its value, its length, the rest. -/
def readDigits : List Char → Nat → Nat → Nat × Nat × List Char
  | [], acc, n => (acc, n, [])
  | c :: cs, acc, n =>
    match digitVal c with
    | some d => readDigits cs (acc * 10 + d) (n + 1)
    | none => (acc, n, c :: cs)

/-- Reads the four hexadecimal digits of a `\u` escape. -/
def readHex4 : List Char → Option (Nat × List Char)
  | a :: b :: c :: d :: cs =>
    match hexVal a, hexVal b, hexVal c, hexVal d with
    | some a, some b, some c, some d => some (((a * 16 + b) * 16 + c) * 16 + d, cs)
    | _, _, _, _ => none
  | _ => none

/-- Reads a string body up to its closing quote.  A surrogate pair of `\u` escapes
is one character; a lone surrogate, which a Lean `Char` cannot hold, is read as
U+FFFD. -/
def parseString : Nat → List Char → List Char → Option (String × List Char)
  | 0, _, _ => none
  | _ + 1, [], _ => none
  | fuel + 1, c :: cs, acc =>
    if c == '"' then some (String.mk acc.reverse, cs)
    else if c == '\\' then
      match cs with
      | [] => none
      | e :: cs =>
        if e == '"' then parseString fuel cs ('"' :: acc)
        else if e == '\\' then parseString fuel cs ('\\' :: acc)
        else if e == '/' then parseString fuel cs ('/' :: acc)
        else if e == 'b' then parseString fuel cs (Char.ofNat 8 :: acc)
        else if e == 'f' then parseString fuel cs (Char.ofNat 12 :: acc)
        else if e == 'n' then parseString fuel cs ('\n' :: acc)
        else if e == 'r' then parseString fuel cs ('\r' :: acc)
        else if e == 't' then parseString fuel cs ('\t' :: acc)
        else if e == 'u' then
          match readHex4 cs with
          | none => none
          | some (hi, cs) =>
            if 0xD800 ≤ hi ∧ hi < 0xDC00 then
              match cs with
              | '\\' :: 'u' :: cs2 =>
                match readHex4 cs2 with
                | none => none
                | some (lo, cs3) =>
                  if 0xDC00 ≤ lo ∧ lo < 0xE000 then
                    parseString fuel cs3
                      (Char.ofNat (0x10000 + (hi - 0xD800) * 0x400 + (lo - 0xDC00)) :: acc)
                  else parseString fuel cs (Char.ofNat 0xFFFD :: acc)
              | _ => parseString fuel cs (Char.ofNat 0xFFFD :: acc)
            else if 0xDC00 ≤ hi ∧ hi < 0xE000 then parseString fuel cs (Char.ofNat 0xFFFD :: acc)
            else parseString fuel cs (Char.ofNat hi :: acc)
        else none
    else if c.toNat < 32 then none
    else parseString fuel cs (c :: acc)

/-- Removes trailing zeros of the mantissa, so that a number has one
representation. -/
def stripZeros : Nat → Int → Int → Int × Int
  | 0, m, e => (m, e)
  | fuel + 1, m, e =>
    if m = 0 then (0, 0)
    else if m % 10 = 0 then stripZeros fuel (m / 10) (e + 1)
    else (m, e)

/-- Reads a number: `-? (0 | [1-9][0-9]*) (.[0-9]+)? ([eE][+-]?[0-9]+)?`. -/
def parseNumber (cs : List Char) : Option (Json × List Char) :=
  let (neg, cs) :=
    match cs with
    | '-' :: r => (true, r)
    | _ => (false, cs)
  let (ip, n, r) := readDigits cs 0 0
  if n = 0 then none
  else if 1 < n ∧ cs.head? = some '0' then none
  else
    let frac : Option (Nat × Nat × List Char) :=
      match r with
      | '.' :: r1 =>
        let (fp, k, r2) := readDigits r1 0 0
        if k = 0 then none else some (ip * 10 ^ k + fp, k, r2)
      | _ => some (ip, 0, r)
    match frac with
    | none => none
    | some (m, k, r) =>
      let expo : Option (Int × List Char) :=
        match r with
        | 'e' :: r1 | 'E' :: r1 =>
          let (eneg, r2) :=
            match r1 with
            | '-' :: t => (true, t)
            | '+' :: t => (false, t)
            | _ => (false, r1)
          let (e, j, r3) := readDigits r2 0 0
          if j = 0 then none else some (if eneg then -(e : Int) else (e : Int), r3)
        | _ => some (0, r)
      match expo with
      | none => none
      | some (e, r) =>
        let (m1, e1) := stripZeros (n + k) (if neg then -(m : Int) else (m : Int)) (e - k)
        some (.num m1 e1, r)

mutual
/-- Reads one value and the whitespace after it. -/
def parseValue : Nat → List Char → Option (Json × List Char)
  | 0, _ => none
  | fuel + 1, cs =>
    match skipWs cs with
    | 'n' :: 'u' :: 'l' :: 'l' :: r => some (.null, skipWs r)
    | 't' :: 'r' :: 'u' :: 'e' :: r => some (.bool true, skipWs r)
    | 'f' :: 'a' :: 'l' :: 's' :: 'e' :: r => some (.bool false, skipWs r)
    | '"' :: r =>
      match parseString (r.length + 1) r [] with
      | none => none
      | some (s, r) => some (.str s, skipWs r)
    | '[' :: r =>
      match skipWs r with
      | ']' :: r => some (.arr [], skipWs r)
      | r =>
        match parseElems fuel r with
        | none => none
        | some (xs, r) => some (.arr xs, skipWs r)
    | '{' :: r =>
      match skipWs r with
      | '}' :: r => some (.obj [], skipWs r)
      | r =>
        match parseMembers fuel r with
        | none => none
        | some (kvs, r) => some (.obj kvs, skipWs r)
    | r =>
      match parseNumber r with
      | none => none
      | some (v, r) => some (v, skipWs r)
/-- Reads the items of a non-empty array up to and including `]`. -/
def parseElems : Nat → List Char → Option (List Json × List Char)
  | 0, _ => none
  | fuel + 1, cs =>
    match parseValue fuel cs with
    | none => none
    | some (v, r) =>
      match r with
      | ',' :: r =>
        match parseElems fuel r with
        | none => none
        | some (xs, r) => some (v :: xs, r)
      | ']' :: r => some ([v], r)
      | _ => none
/-- Reads the members of a non-empty object up to and including the closing
brace. -/
def parseMembers : Nat → List Char → Option (List (String × Json) × List Char)
  | 0, _ => none
  | fuel + 1, cs =>
    match skipWs cs with
    | '"' :: r =>
      match parseString (r.length + 1) r [] with
      | none => none
      | some (k, r) =>
        match skipWs r with
        | ':' :: r =>
          match parseValue fuel r with
          | none => none
          | some (v, r) =>
            match r with
            | ',' :: r =>
              match parseMembers fuel r with
              | none => none
              | some (kvs, r) => some ((k, v) :: kvs, r)
            | '}' :: r => some ([(k, v)], r)
            | _ => none
        | _ => none
    | _ => none
end

/-- The call `JSON.parse(text)`: the value of the whole text, or a `SyntaxError`. -/
def jsonParse (text : String) : Except JsError Json :=
  match parseValue (2 * text.length + 2) text.data with
  | some (v, []) => .ok v
  | _ => .error .malformedJson

/-- The operation `TimeClip`: `NaN` beyond 8.64e15 milliseconds from the epoch. -/
def timeClip (t : Int) : TimeValue :=
  if t.natAbs > 8640000000000000 then .nan else .ms t

/-- Number of binary digits of `n`; the first argument bounds the recursion. -/
def bitLength : Nat → Nat → Nat
  | 0, _ => 0
  | fuel + 1, n => if n = 0 then 0 else bitLength fuel (n / 2) + 1

/-- The integer nearest to `num / den`, ties to the even one. -/
def roundHalfEven (num den : Nat) : Nat :=
  let q := num / den
  let r := num % den
  if den < 2 * r then q + 1
  else if 2 * r = den then (if q % 2 = 0 then q else q + 1)
  else q

/-- The integer `l` with `2 ^ l ≤ n / d < 2 ^ (l + 1)`, for positive `n` and `d`. -/
def floorLog2 (n d : Nat) : Int :=
  let l : Int := (bitLength n n : Int) - (bitLength d d : Int)
  if 0 ≤ l then (if d * 2 ^ l.toNat ≤ n then l else l - 1)
  else (if d ≤ n * 2 ^ (-l).toNat then l else l - 1)

/-- The double nearest to `n / d` (positive `n` and `d`, ties to even), as the pair
`(q, k)` of value `q * 2 ^ k` with `q ≤ 2 ^ 53`; `none` when the nearest double is
infinite. -/
def nearestDouble (n d : Nat) : Option (Nat × Int) :=
  let k : Int := max (floorLog2 n d - 52) (-1074)
  let q : Nat :=
    if 0 ≤ k then roundHalfEven n (d * 2 ^ k.toNat) else roundHalfEven (n * 2 ^ (-k).toNat) d
  if 971 < k ∨ (k = 971 ∧ 2 ^ 53 ≤ q) then none else some (q, k)

/-- Time value of `new Date(x)` for the number `x` that `JSON.parse` reads from the
decimal `m * 10 ^ e`: the double nearest to the decimal, truncated toward zero, then
clipped; an infinite double gives `NaN`. -/
def timeOfNumber (m e : Int) : TimeValue :=
  if m = 0 then .ms 0
  else
    let n : Nat := if 0 ≤ e then m.natAbs * 10 ^ e.toNat else m.natAbs
    let d : Nat := if 0 ≤ e then 1 else 10 ^ (-e).toNat
    match nearestDouble n d with
    | none => .nan
    | some (q, k) =>
      let t : Nat := if 0 ≤ k then q * 2 ^ k.toNat else q / 2 ^ (-k).toNat
      timeClip (if m < 0 then -(t : Int) else (t : Int))

/-- Days from 1970-01-01 to day `d` of month `m` (1 to 12) of year `y` in the
proleptic Gregorian calendar; a day past the end of the month counts on into the
following month. -/
def daysFromCivil (y : Int) (m d : Nat) : Int :=
  let y1 : Int := if m ≤ 2 then y - 1 else y
  let era : Int := y1 / 400
  let yoe : Int := y1 - era * 400
  let mp : Int := if 2 < m then (m : Int) - 3 else (m : Int) + 9
  let doy : Int := (153 * mp + 2) / 5 + (d : Int) - 1
  let doe : Int := yoe * 365 + yoe / 4 - yoe / 100 + doy
  era * 146097 + doe - 719468

/-- Reads a run of decimal digits that is exactly `n` digits long. -/
def readRun (n : Nat) (cs : List Char) : Option (Nat × List Char) :=
  match readDigits cs 0 0 with
  | (v, k, r) => if k = n then some (v, r) else none

/-- The year of a date-time string: `YYYY`, or a sign and six digits other than
`-000000`. -/
def parseYear (cs : List Char) : Option (Int × List Char) :=
  match cs with
  | '+' :: r =>
    match readRun 6 r with
    | some (y, r) => some ((y : Int), r)
    | none => none
  | '-' :: r =>
    match readRun 6 r with
    | some (y, r) => if y = 0 then none else some (-(y : Int), r)
    | none => none
  | _ =>
    match readRun 4 cs with
    | some (y, r) => some ((y : Int), r)
    | none => none

/-- The optional `-MM` and `-DD` of a date-time string; month and day default to 1. -/
def parseMonthDay (cs : List Char) : Option (Nat × Nat × List Char) :=
  match cs with
  | '-' :: r =>
    match readRun 2 r with
    | some (mo, r) =>
      if 1 ≤ mo ∧ mo ≤ 12 then
        match r with
        | '-' :: r =>
          match readRun 2 r with
          | some (d, r) => if 1 ≤ d ∧ d ≤ 31 then some (mo, d, r) else none
          | none => none
        | _ => some (mo, 1, r)
      else none
    | none => none
  | _ => some (1, 1, cs)

/-- The time part `HH:mm[:ss[.s...]]` of a date-time string, in milliseconds, and
the rest of the text.  The hour 24 is read only in `24:00[:00[.0...]]`; a fraction of
any length is cut to milliseconds. -/
def parseTimeOfDay (cs : List Char) : Option (Nat × List Char) :=
  match readRun 2 cs with
  | some (h, ':' :: r) =>
    match readRun 2 r with
    | some (mi, r) =>
      let secs : Option (Nat × Nat × List Char) :=
        match r with
        | ':' :: r1 =>
          match readRun 2 r1 with
          | some (sec, r2) =>
            match r2 with
            | '.' :: r3 =>
              match readDigits r3 0 0 with
              | (v, k, r4) =>
                if k = 0 then none
                else some (sec, if k ≤ 3 then v * 10 ^ (3 - k) else v / 10 ^ (k - 3), r4)
            | _ => some (sec, 0, r2)
          | none => none
        | _ => some (0, 0, r)
      match secs with
      | some (sec, milli, r) =>
        if (h ≤ 23 ∧ mi ≤ 59 ∧ sec ≤ 59) ∨ (h = 24 ∧ mi = 0 ∧ sec = 0 ∧ milli = 0) then
          some (((h * 60 + mi) * 60 + sec) * 1000 + milli, r)
        else none
      | none => none
    | none => none
  | _ => none

/-- The end of a date-time string after its time part: nothing (`some none`), `Z`, or
an offset `+HH:mm`, `-HH:mm`, `+HHmm`, `-HHmm`, in minutes east of UTC. -/
def parseOffset (cs : List Char) : Option (Option Int) :=
  let signed (sign : Int) (r : List Char) : Option (Option Int) :=
    match readDigits r 0 0 with
    | (v, k, r1) =>
      if k = 4 ∧ r1 = [] then
        (if v / 100 ≤ 23 ∧ v % 100 ≤ 59 then
          some (some (sign * ((v / 100 * 60 + v % 100 : Nat) : Int)))
         else none)
      else if k = 2 then
        match r1 with
        | ':' :: r2 =>
          match readRun 2 r2 with
          | some (mi, []) =>
            if v ≤ 23 ∧ mi ≤ 59 then some (some (sign * ((v * 60 + mi : Nat) : Int))) else none
          | _ => none
        | _ => none
      else none
  match cs with
  | [] => some none
  | ['Z'] => some (some 0)
  | '+' :: r => signed 1 r
  | '-' :: r => signed (-1) r
  | _ => none

/-- The function `Date.parse` on the date-time interchange format: a date `YYYY`,
`YYYY-MM` or `YYYY-MM-DD` (also with a signed six-digit year), alone or followed by
`T`, a time `HH:mm[:ss[.s...]]` and an optional `Z` or numeric offset.  A date alone
is UTC; a date and time without offset is local time, and the local time zone of this
instance is UTC.  Where the specification leaves the reading to the engine, the
instance follows V8 in three points (a day of the month up to 31 counts on into the
next month, a fraction of any length is cut to milliseconds, the offset may be written
`+HHmm`) and gives `NaN` on every other text, which an engine may still read with its
own fallback formats. -/
def dateParse (text : String) : TimeValue :=
  match parseYear text.data with
  | none => .nan
  | some (y, r) =>
    match parseMonthDay r with
    | none => .nan
    | some (mo, d, r) =>
      match r with
      | [] => timeClip (daysFromCivil y mo d * 86400000)
      | 'T' :: r =>
        match parseTimeOfDay r with
        | none => .nan
        | some (t, r) =>
          match parseOffset r with
          | none => .nan
          | some off =>
            timeClip (daysFromCivil y mo d * 86400000 + (t : Int) - off.getD 0 * 60000)
      | _ => .nan

/-- Decimal digits of `n`, written in front of `acc`; the first argument bounds the
recursion. -/
def natDigits : Nat → Nat → List Char → List Char
  | 0, _, acc => acc
  | fuel + 1, n, acc =>
    if n / 10 = 0 then Char.ofNat ('0'.toNat + n % 10) :: acc
    else natDigits fuel (n / 10) (Char.ofNat ('0'.toNat + n % 10) :: acc)

/-- The text of the number that `JSON.parse` reads from the decimal `m * 10 ^ e`, when
that number is an integer below `10 ^ 21` or infinite; `none` for the other numbers,
whose text is not part of this instance. -/
def numberText (m e : Int) : Option (List Char) :=
  if m = 0 then some ['0']
  else
    let n : Nat := if 0 ≤ e then m.natAbs * 10 ^ e.toNat else m.natAbs
    let d : Nat := if 0 ≤ e then 1 else 10 ^ (-e).toNat
    let sign : List Char := if m < 0 then ['-'] else []
    match nearestDouble n d with
    | none => some (sign ++ "Infinity".data)
    | some (q, k) =>
      if q = 0 then some ['0']
      else if 0 ≤ k then
        (if q * 2 ^ k.toNat < 10 ^ 21 then some (sign ++ natDigits 22 (q * 2 ^ k.toNat) [])
         else none)
      else if q % 2 ^ (-k).toNat = 0 then some (sign ++ natDigits 22 (q / 2 ^ (-k).toNat) [])
      else none

mutual
/-- Whether converting a decoded value to a primitive throws.  A decoded object
inherits `toString` unless it has an own member of that name, which is never
callable: then no conversion method yields a primitive.  An array is converted by
joining its items, each non-null item being converted to a string in turn. -/
def toPrimitiveThrows : Json → Bool
  | .obj members => members.any (fun kv => kv.1 == "toString")
  | .arr items => anyToPrimitiveThrows items
  | _ => false
/-- Whether converting one of the items throws. -/
def anyToPrimitiveThrows : List Json → Bool
  | [] => false
  | i :: rest => toPrimitiveThrows i || anyToPrimitiveThrows rest
end

mutual
/-- The text of an array item in a join, when no conversion throws: empty for `null`;
`none` when the item holds a number whose text is not part of this instance. -/
def itemText : Json → Option (List Char)
  | .null => some []
  | .bool b => some (if b then "true".data else "false".data)
  | .num m e => numberText m e
  | .str s => some s.data
  | .arr items => joinItems items
  | .obj _ => some "[object Object]".data
/-- The join of the items with commas. -/
def joinItems : List Json → Option (List Char)
  | [] => some []
  | [i] => itemText i
  | i :: j :: rest =>
    match itemText i, joinItems (j :: rest) with
    | some a, some b => some (a ++ ',' :: b)
    | _, _ => none
end

/-- The constructor call `new Date(v)`: `undefined` is an invalid date, `null` and
booleans are converted to the numbers 0 and 1, a number is a count of milliseconds, a
string goes through `Date.parse`.  An object or array is first converted to a
primitive: the constructor throws when that conversion throws; otherwise an object
gives the text "[object Object]", which is no date, and an array gives the join of
its items, which goes through `Date.parse` (`NaN` when the join holds a number whose
text is not part of this instance). -/
def newDate : Option Json → Option JsDate
  | none => some ⟨.nan⟩
  | some .null => some ⟨.ms 0⟩
  | some (.bool b) => some ⟨.ms (if b then 1 else 0)⟩
  | some (.num m e) => some ⟨timeOfNumber m e⟩
  | some (.str s) => some ⟨dateParse s⟩
  | some (.arr items) =>
    if anyToPrimitiveThrows items then none
    else
      match joinItems items with
      | some cs => some ⟨dateParse (String.mk cs)⟩
      | none => some ⟨.nan⟩
  | some (.obj members) => if toPrimitiveThrows (.obj members) then none else some ⟨.nan⟩

/-- The built-ins of the concrete runs. -/
def ecma : Builtins := ⟨jsonParse, newDate⟩

/-! ## Vocabulary of the statements -/

/-- Value of `record.key` on a non-null record: `none` is `undefined` (the key is
missing). -/
def field (record : Json) (key : String) : Option Json :=
  match record with
  | .obj members => members.reverse.lookup key
  | _ => none

/-- Timestamp of a record: `new Date(record.timestamp)`, or `none` when the
constructor throws on that value. -/
def timestampOf (B : Builtins) (record : Json) : Option JsDate :=
  B.newDate (field record "timestamp")

/-- Signed span, in days, from the timestamp `first` to the timestamp `last`. -/
def spanDays (first last : JsDate) : JsNum :=
  ((toNumber (some last)).sub (toNumber (some first))).div 86400000

/-- The element's payload decodes to the record collection `records`: `JSON.parse`
returns an array, none of its items is `null`, and each item has a timestamp, that is,
`new Date` does not throw on its `timestamp` value (it never throws on a string, a
number, a boolean, `null` or a missing value). -/
def Decodes (B : Builtins) (el : El) (records : List Json) : Prop :=
  B.jsonParse (orDefault el.intervals "[]") = .ok (.arr records) ∧
    ∀ r ∈ records, r ≠ Json.null ∧ (timestampOf B r).isSome = true

/-- A chart has been constructed: `this.chart` holds a chart with four datasets. -/
def Constructed (self : Hook) : Prop :=
  ∃ c, self.chart = some c ∧ c.datasets.length = 4

/-- The equal-length property of the hook's chart, if it has one: four datasets,
each data buffer as long as the label sequence. -/
def EqualLength (self : Hook) : Prop :=
  ∀ c, self.chart = some c →
    c.datasets.length = 4 ∧ ∀ ds ∈ c.datasets, ds.data.length = c.labels.length

/-- The part of a dataset that identifies the series: label, colors, line style. -/
def Dataset.style (d : Dataset) : String × String × String × Nat × ℚ × Bool :=
  (d.label, d.borderColor, d.backgroundColor, d.borderWidth, d.tension, d.fill)

/-- Number of `new Chart` calls in a log. -/
def constructCount (log : List EngineCall) : Nat :=
  log.count .construct

/-- Number of `chart.destroy()` calls in a log. -/
def destroyCount (log : List EngineCall) : Nat :=
  log.count .destroy

/-! ## Concrete elements -/

/-- No `data-intervals` and no `data-type` attribute. -/
def elAbsent : El := ⟨none, none⟩

/-- Two records ten days apart. -/
def elTenDays : El :=
  ⟨some ("[\x7b\"timestamp\":\"2024-03-01T00:00:00Z\",\"oee\":61.5,\"availability\":90," ++
      "\"performance\":80,\"quality\":85.4\x7d," ++
      "\x7b\"timestamp\":\"2024-03-11T00:00:00Z\",\"oee\":70,\"availability\":91," ++
      "\"performance\":82,\"quality\":93.8\x7d]"), some "line"⟩

/-- Three records, the first and last three hours apart. -/
def elThreeHours : El :=
  ⟨some ("[\x7b\"timestamp\":\"2024-03-01T08:00:00Z\",\"oee\":50\x7d," ++
      "\x7b\"timestamp\":\"2024-03-01T09:30:00Z\",\"oee\":55\x7d," ++
      "\x7b\"timestamp\":\"2024-03-01T11:00:00Z\",\"oee\":60\x7d]"), none⟩

/-- One record. -/
def elSingle : El :=
  ⟨some "[\x7b\"timestamp\":\"2024-03-01T08:00:00Z\",\"oee\":50,\"quality\":120\x7d]", none⟩

/-- One record whose timestamp is an object with an own, non-callable `toString`. -/
def elBadTimestamp : El :=
  ⟨some "[\x7b\"timestamp\":\x7b\"toString\":1\x7d,\"oee\":50\x7d]", none⟩

/-- The three-hour collection with such a record in its interior. -/
def elBadInterior : El :=
  ⟨some ("[\x7b\"timestamp\":\"2024-03-01T08:00:00Z\",\"oee\":50\x7d," ++
      "\x7b\"timestamp\":\x7b\"toString\":1\x7d,\"oee\":55\x7d," ++
      "\x7b\"timestamp\":\"2024-03-01T11:00:00Z\",\"oee\":60\x7d]"), none⟩

/-- An `intervals` attribute that is not JSON, with the kind `bar` requested. -/
def elMalformed : El := ⟨some "not-json", some "bar"⟩

/-- The empty collection with the kind `bar` requested. -/
def elBar : El := ⟨some "[]", some "bar"⟩

/-- The records of `elTenDays`, as `JSON.parse` returns them. -/
def tenDaysRecords : List Json :=
  [ .obj [("timestamp", .str "2024-03-01T00:00:00Z"), ("oee", .num 615 (-1)),
      ("availability", .num 9 1), ("performance", .num 8 1), ("quality", .num 854 (-1))],
    .obj [("timestamp", .str "2024-03-11T00:00:00Z"), ("oee", .num 7 1),
      ("availability", .num 91 0), ("performance", .num 82 0), ("quality", .num 938 (-1))] ]

/-- The records of `elThreeHours`. -/
def threeHoursRecords : List Json :=
  [ .obj [("timestamp", .str "2024-03-01T08:00:00Z"), ("oee", .num 5 1)],
    .obj [("timestamp", .str "2024-03-01T09:30:00Z"), ("oee", .num 55 0)],
    .obj [("timestamp", .str "2024-03-01T11:00:00Z"), ("oee", .num 6 1)] ]

/-- The record of `elSingle`. -/
def singleRecord : Json :=
  .obj [("timestamp", .str "2024-03-01T08:00:00Z"), ("oee", .num 5 1), ("quality", .num 12 1)]

/-- The hook after `mounted()` on an element without attributes. -/
def mountedHook : Hook := (mounted ecma elAbsent fresh).hook

/-- The record of `elSingle` with the kind `bar` requested. -/
def elBarSingle : El :=
  ⟨some "[\x7b\"timestamp\":\"2024-03-01T08:00:00Z\",\"oee\":50,\"quality\":120\x7d]", some "bar"⟩

/-- The hook after `mounted()` and then `destroyed()`. -/
def destroyedHook : Hook := (destroyed mountedHook).hook

end OEEChart

/-! # Verification -/

set_option maxRecDepth 20000

namespace OEEChart


/-! ## Lemmas on the normalizer -/

theorem getField_of_ne_null (r : Json) (key : String) (h : r ≠ Json.null) :
    getField r key = .ok (field r key) := by
  cases r <;> simp_all [getField, field]

theorem mapItems_getField (key : String) (records : List Json)
    (h : ∀ r ∈ records, r ≠ Json.null) :
    mapItems (fun i => getField i key) records = .ok (records.map fun r => field r key) := by
  induction records with
  | nil => rfl
  | cons r rest ih =>
    have hr : r ≠ Json.null := h r (List.mem_cons_self r rest)
    have hrest : ∀ x ∈ rest, x ≠ Json.null := fun x hx => h x (List.mem_cons_of_mem r hx)
    simp [mapItems, getField_of_ne_null r key hr, ih hrest]

theorem timestampCallback_of_some (B : Builtins) (r : Json) (d : JsDate)
    (hr : r ≠ Json.null) (hd : timestampOf B r = some d) : timestampCallback B r = .ok d := by
  have hd' : B.newDate (field r "timestamp") = some d := hd
  simp [timestampCallback, getField_of_ne_null r "timestamp" hr, hd']

theorem mapItems_timestamp (B : Builtins) (records : List Json)
    (h : ∀ r ∈ records, r ≠ Json.null ∧ (timestampOf B r).isSome = true) :
    mapItems (timestampCallback B) records = .ok (records.filterMap (timestampOf B)) := by
  induction records with
  | nil => rfl
  | cons r rest ih =>
    obtain ⟨hr, hs⟩ := h r (List.mem_cons_self r rest)
    have hrest : ∀ x ∈ rest, x ≠ Json.null ∧ (timestampOf B x).isSome = true :=
      fun x hx => h x (List.mem_cons_of_mem r hx)
    obtain ⟨d, hd⟩ := Option.isSome_iff_exists.mp hs
    simp [mapItems, timestampCallback_of_some B r d hr hd, ih hrest, List.filterMap_cons, hd]

theorem filterMap_map_some {α β : Type} (f : α → Option β) (xs : List α)
    (h : ∀ x ∈ xs, (f x).isSome = true) : (xs.filterMap f).map some = xs.map f := by
  induction xs with
  | nil => rfl
  | cons x rest ih =>
    obtain ⟨d, hd⟩ := Option.isSome_iff_exists.mp (h x (List.mem_cons_self x rest))
    have hrest : ∀ y ∈ rest, (f y).isSome = true := fun y hy => h y (List.mem_cons_of_mem x hy)
    simp [List.filterMap_cons, hd, ih hrest]

theorem filterMap_length_of_some {α β : Type} (f : α → Option β) (xs : List α)
    (h : ∀ x ∈ xs, (f x).isSome = true) : (xs.filterMap f).length = xs.length := by
  have := congrArg List.length (filterMap_map_some f xs h)
  simpa using this

theorem filterMap_head_of_some {α β : Type} (f : α → Option β) (xs : List α) (x : α) (d : β)
    (h : ∀ x ∈ xs, (f x).isSome = true) (hx : xs.head? = some x) (hd : f x = some d) :
    (xs.filterMap f).head? = some d := by
  have := congrArg List.head? (filterMap_map_some f xs h)
  simp only [List.head?_map, hx, Option.map_some', hd] at this
  cases hh : (xs.filterMap f).head? with
  | none => simp [hh] at this
  | some y =>
    simp [hh] at this
    rw [this]

theorem filterMap_getLast_of_some {α β : Type} (f : α → Option β) (xs : List α) (x : α)
    (d : β) (h : ∀ x ∈ xs, (f x).isSome = true) (hx : xs.getLast? = some x)
    (hd : f x = some d) : (xs.filterMap f).getLast? = some d := by
  have := congrArg List.getLast? (filterMap_map_some f xs h)
  simp only [List.getLast?_map, hx, Option.map_some', hd] at this
  cases hh : (xs.filterMap f).getLast? with
  | none => simp [hh] at this
  | some y =>
    simp [hh] at this
    rw [this]

theorem decodes_some (B : Builtins) (el : El) (records : List Json)
    (h : Decodes B el records) : ∀ r ∈ records, (timestampOf B r).isSome = true :=
  fun r hr => (h.2 r hr).2

theorem decodes_ne_null (B : Builtins) (el : El) (records : List Json)
    (h : Decodes B el records) : ∀ r ∈ records, r ≠ Json.null :=
  fun r hr => (h.2 r hr).1

theorem mapItems_length {α : Type} (f : Json → Except JsError α) :
    ∀ (items : List Json) (out : List α), mapItems f items = .ok out → out.length = items.length
  | [], out, h => by
    simp [mapItems] at h
    simp [← h]
  | i :: rest, out, h => by
    simp only [mapItems] at h
    cases hf : f i with
    | error e => simp [hf] at h
    | ok a =>
      cases hr : mapItems f rest with
      | error e => simp [hf, hr] at h
      | ok as =>
        simp [hf, hr] at h
        simp [← h, mapItems_length f rest as hr]

theorem handleUpdateArgs_of_decodes (B : Builtins) (el : El) (records : List Json)
    (h : Decodes B el records) :
    handleUpdateArgs B el = .ok
      ⟨records.filterMap (timestampOf B), records.map (fun r => field r "oee"),
        records.map (fun r => field r "availability"),
        records.map (fun r => field r "performance"),
        records.map (fun r => field r "quality"), orDefault el.type "line"⟩ := by
  have hp := h.1
  simp [handleUpdateArgs, hp, arrayMap, mapItems_timestamp B records h.2,
    mapItems_getField _ records (decodes_ne_null B el records h)]


/-- In the concrete instance `new Date` throws on no primitive argument: only an
object or array timestamp can keep an item from being a record. -/
theorem ecma_newDate_primitive (v : Option Json) (harr : ∀ items, v ≠ some (.arr items))
    (hobj : ∀ members, v ≠ some (.obj members)) : (ecma.newDate v).isSome = true := by
  rcases v with _ | v
  · rfl
  · cases v with
    | null => rfl
    | bool b => rfl
    | num m e => rfl
    | str s => rfl
    | arr items => exact absurd rfl (harr items)
    | obj members => exact absurd rfl (hobj members)

theorem tenDays_decodes : Decodes ecma elTenDays tenDaysRecords := by
  refine ⟨rfl, ?_⟩
  intro r hr
  simp only [tenDaysRecords, List.mem_cons, List.mem_singleton, List.not_mem_nil,
    or_false] at hr
  rcases hr with rfl | rfl <;> exact ⟨by simp, rfl⟩

theorem threeHours_decodes : Decodes ecma elThreeHours threeHoursRecords := by
  refine ⟨rfl, ?_⟩
  intro r hr
  simp only [threeHoursRecords, List.mem_cons, List.mem_singleton, List.not_mem_nil,
    or_false] at hr
  rcases hr with rfl | rfl | rfl <;> exact ⟨by simp, rfl⟩

theorem single_decodes : Decodes ecma elSingle [singleRecord] := by
  refine ⟨rfl, ?_⟩
  intro r hr
  simp only [List.mem_singleton] at hr
  subst hr
  exact ⟨by simp [singleRecord], rfl⟩

theorem empty_decodes (B : Builtins) (el : El)
    (h : B.jsonParse (orDefault el.intervals "[]") = .ok (.arr [])) : Decodes B el [] :=
  ⟨h, by simp⟩

/-! ## Lemmas on `updateChart` -/

theorem index_zero {α : Type} (xs : List α) : index xs 0 = xs.head? := by
  cases xs <;> simp [index]

theorem index_last {α : Type} (xs : List α) :
    index xs ((xs.length : Int) - 1) = xs.getLast? := by
  cases xs with
  | nil => simp [index]
  | cons x rest =>
    have h : ((x :: rest).length : Int) - 1 = (rest.length : Int) := by simp
    rw [h, List.getLast?_eq_getElem?]
    simp [index]

/-- On a chart with four datasets `updateChart` completes; this is the hook after
it. -/
theorem updateChart_constructed (timestamps : List JsDate)
    (oeeData availabilityData performanceData qualityData : List (Option Json))
    (chartType : String) (self : Hook) (c : Chart) (d0 d1 d2 d3 : Dataset)
    (hc : self.chart = some c) (hd : c.datasets = [d0, d1, d2, d3]) :
    updateChart timestamps oeeData availabilityData performanceData qualityData chartType self
      = ⟨{ chart := some
            { type := chartType
              labels := timestamps
              datasets := [{ d0 with data := oeeData }, { d1 with data := availabilityData },
                { d2 with data := performanceData }, { d3 with data := qualityData }]
              options := { c.options with x := { c.options.x with
                unit := timeUnitOf
                  (((toNumber timestamps.getLast?).sub (toNumber timestamps.head?)).div
                    (1000 * 60 * 60 * 24)) } } }
           log := self.log ++ [.update "none"] }, none⟩ := by
  cases c with
  | mk ty labels datasets options =>
    simp only at hd
    subst hd
    simp only [updateChart, hc, index_zero, index_last, setData]
    by_cases ht : ty = chartType <;> simp [ht]

theorem datasets_of_length_four (ds : List Dataset) (h : ds.length = 4) :
    ∃ d0 d1 d2 d3, ds = [d0, d1, d2, d3] := by
  rcases ds with _ | ⟨a, _ | ⟨b, _ | ⟨c, _ | ⟨d, _ | ⟨e, rest⟩⟩⟩⟩⟩ <;> simp at h
  exact ⟨a, b, c, d, rfl⟩


/-! ## The normalizer (C2) -/

/-- C2: for every payload that decodes to a collection of `n` interval records
(`n = 0` included; a record is a non-null item on whose `timestamp` value `new Date`
does not throw), `handleUpdate` does not fail before `updateChart` and passes it five
sequences of length `n`: the `i`-th timestamp is the timestamp of record `i`, and the
`i`-th entry of each numeric series is that record's `oee` / `availability` /
`performance` / `quality` field itself, in input order, a missing field staying
missing. -/
theorem normalizer_output_shape (B : Builtins) (el : El) (records : List Json) (self : Hook)
    (h : Decodes B el records) :
    ∃ a, handleUpdateArgs B el = .ok a ∧
      handleUpdate B el self =
        updateChart a.timestamps a.oeeData a.availabilityData a.performanceData a.qualityData
          a.chartType self ∧
      (a.timestamps.length = records.length ∧ a.oeeData.length = records.length ∧
        a.availabilityData.length = records.length ∧
        a.performanceData.length = records.length ∧ a.qualityData.length = records.length) ∧
      (∀ i (hi : i < records.length),
        a.timestamps[i]? = timestampOf B records[i] ∧
        a.oeeData[i]? = some (field records[i] "oee") ∧
        a.availabilityData[i]? = some (field records[i] "availability") ∧
        a.performanceData[i]? = some (field records[i] "performance") ∧
        a.qualityData[i]? = some (field records[i] "quality")) ∧
      (records = [] → a.timestamps = [] ∧ a.oeeData = [] ∧ a.availabilityData = [] ∧
        a.performanceData = [] ∧ a.qualityData = []) := by
  have hsome := decodes_some B el records h
  refine ⟨_, handleUpdateArgs_of_decodes B el records h, ?_, ?_, ?_, ?_⟩
  · simp [handleUpdate, handleUpdateArgs_of_decodes B el records h]
  · simp [filterMap_length_of_some _ records hsome]
  · intro i hi
    have hts := congrArg (fun l => l[i]?) (filterMap_map_some (timestampOf B) records hsome)
    simp only [List.getElem?_map, List.getElem?_eq_getElem hi, Option.map_some'] at hts
    refine ⟨?_, by simp [List.getElem?_map, List.getElem?_eq_getElem hi]⟩
    cases hg : (records.filterMap (timestampOf B))[i]? with
    | none => simp [hg] at hts
    | some d =>
      simp only [hg, Option.map_some'] at hts
      exact Option.some.inj hts
  · intro hnil
    simp [hnil]

/-- Witness of C2: the two records of `elTenDays` give five sequences of length two,
the `oee` series being the two `oee` fields in input order. -/
theorem normalizer_output_shape_witness :
    Decodes ecma elTenDays tenDaysRecords ∧
    ∃ a, handleUpdateArgs ecma elTenDays = .ok a ∧ a.timestamps.length = 2 ∧
      a.qualityData.length = 2 ∧
      a.timestamps[0]? = some ⟨.ms 1709251200000⟩ ∧
      a.oeeData[1]? = some (some (.num 7 1)) := by
  have hd : Decodes ecma elTenDays tenDaysRecords := tenDays_decodes
  obtain ⟨a, ha, _, hlen, hidx, _⟩ :=
    normalizer_output_shape ecma elTenDays tenDaysRecords fresh hd
  refine ⟨hd, a, ha, hlen.1, hlen.2.2.2.2, ?_, ?_⟩
  · rw [(hidx 0 (by decide)).1]
    rfl
  · rw [(hidx 1 (by decide)).2.1]
    rfl

/-! ## Granularity (C1) -/

theorem timeUnitOf_fin (q : ℚ) :
    (q > 7 → timeUnitOf (.fin q) = "day") ∧
    (1 < q → q ≤ 7 → timeUnitOf (.fin q) = "hour") ∧
    (q ≤ 1 → timeUnitOf (.fin q) = "minute") := by
  refine ⟨?_, ?_, ?_⟩
  · intro h
    simp [timeUnitOf, JsNum.gt, h]
  · intro h1 h7
    have : ¬ (7 < q) := not_lt.mpr h7
    simp [timeUnitOf, JsNum.gt, h1, this]
  · intro h
    have h1 : ¬ (1 < q) := not_lt.mpr h
    have h7 : ¬ (7 < q) := fun h' => h1 (by linarith)
    simp [timeUnitOf, JsNum.gt, h1, h7]

theorem spanDays_ms (first last : JsDate) (a b : Int) (hf : first.time = .ms a)
    (hl : last.time = .ms b) : spanDays first last = .fin (((b : ℚ) - a) / 86400000) := by
  simp [spanDays, toNumber, hf, hl, JsNum.sub, JsNum.div]

theorem handleUpdate_unit (B : Builtins) (el : El) (self : Hook) (records : List Json)
    (hc : Constructed self) (hdec : Decodes B el records) :
    (handleUpdate B el self).thrown = none ∧
    ∃ c', (handleUpdate B el self).hook.chart = some c' ∧
      c'.options.x.unit = timeUnitOf
        (((toNumber (records.filterMap (timestampOf B)).getLast?).sub
          (toNumber (records.filterMap (timestampOf B)).head?)).div 86400000) := by
  obtain ⟨c, hchart, h4⟩ := hc
  obtain ⟨d0, d1, d2, d3, hd⟩ := datasets_of_length_four c.datasets h4
  have hk : (1000 * 60 * 60 * 24 : ℚ) = 86400000 := by norm_num
  simp only [handleUpdate, handleUpdateArgs_of_decodes B el records hdec,
    updateChart_constructed _ _ _ _ _ _ self c d0 d1 d2 d3 hchart hd, hk]
  exact ⟨trivial, _, rfl, rfl⟩

/-- C1: for every update of a constructed chart with a non-empty decoded collection of
records (in particular one of two or more records; a record is a non-null item on
whose `timestamp` value `new Date` does not throw), the update completes and the x-axis
time unit after it is the value of the threshold function at the signed span, in days,
from the first timestamp `dFirst` to the last timestamp `dLast` in input order,
whatever the chart's previous unit and kind and whatever the interior records.  For
valid timestamps `a` (first) and `b` (last), in milliseconds: the unit is "day" if the
span exceeds 7 days, "hour" if it exceeds 1 day and is at most 7 days, "minute" if it
is at most 1 day; a span of exactly 7 days gives "hour", exactly 1 day gives
"minute". -/
theorem granularity_thresholds (B : Builtins) (el : El) (self : Hook) (records : List Json)
    (first last : Json) (dFirst dLast : JsDate) (hc : Constructed self)
    (hdec : Decodes B el records)
    (hfirst : records.head? = some first) (hlast : records.getLast? = some last)
    (hdFirst : timestampOf B first = some dFirst) (hdLast : timestampOf B last = some dLast) :
    (handleUpdate B el self).thrown = none ∧
    ∃ c', (handleUpdate B el self).hook.chart = some c' ∧
      c'.options.x.unit = timeUnitOf (spanDays dFirst dLast) ∧
      ∀ a b : Int, dFirst.time = .ms a → dLast.time = .ms b →
        ((((b : ℚ) - a) / 86400000 > 7 → c'.options.x.unit = "day") ∧
         (1 < ((b : ℚ) - a) / 86400000 → ((b : ℚ) - a) / 86400000 ≤ 7 →
            c'.options.x.unit = "hour") ∧
         (((b : ℚ) - a) / 86400000 ≤ 1 → c'.options.x.unit = "minute") ∧
         (b - a = 7 * 86400000 → c'.options.x.unit = "hour") ∧
         (b - a = 86400000 → c'.options.x.unit = "minute")) := by
  obtain ⟨hthrown, c', hchart, hunit⟩ := handleUpdate_unit B el self records hc hdec
  have hsome := decodes_some B el records hdec
  have hspan : c'.options.x.unit = timeUnitOf (spanDays dFirst dLast) := by
    rw [hunit, filterMap_head_of_some _ records first dFirst hsome hfirst hdFirst,
      filterMap_getLast_of_some _ records last dLast hsome hlast hdLast]
    rfl
  refine ⟨hthrown, c', hchart, hspan, ?_⟩
  intro a b ha hb
  rw [hspan, spanDays_ms _ _ a b ha hb]
  obtain ⟨hday, hhour, hminute⟩ := timeUnitOf_fin (((b : ℚ) - a) / 86400000)
  refine ⟨hday, hhour, hminute, ?_, ?_⟩
  · intro h7
    have hq : ((b : ℚ) - a) = 7 * 86400000 := by exact_mod_cast h7
    exact hhour (by rw [hq]; norm_num) (by rw [hq]; norm_num)
  · intro h1
    have hq : ((b : ℚ) - a) = 86400000 := by exact_mod_cast h1
    exact hminute (by rw [hq]; norm_num)


theorem mountedHook_constructed : Constructed mountedHook :=
  ⟨_, rfl, rfl⟩

/-- Witness of C1: on the mounted chart, records spanning 10 days give "day" and
records spanning 3 hours give "minute". -/
theorem granularity_thresholds_witness :
    (∃ c, (handleUpdate ecma elTenDays mountedHook).hook.chart = some c ∧
      c.options.x.unit = "day") ∧
    (∃ c, (handleUpdate ecma elThreeHours mountedHook).hook.chart = some c ∧
      c.options.x.unit = "minute") := by
  constructor
  · obtain ⟨_, c, hc, _, hcases⟩ :=
      granularity_thresholds ecma elTenDays mountedHook tenDaysRecords _ _
        ⟨.ms 1709251200000⟩ ⟨.ms 1710115200000⟩
        mountedHook_constructed tenDays_decodes rfl rfl rfl rfl
    exact ⟨c, hc, (hcases 1709251200000 1710115200000 rfl rfl).1 (by norm_num)⟩
  · obtain ⟨_, c, hc, _, hcases⟩ :=
      granularity_thresholds ecma elThreeHours mountedHook threeHoursRecords _ _
        ⟨.ms 1709280000000⟩ ⟨.ms 1709290800000⟩
        mountedHook_constructed threeHours_decodes rfl rfl rfl rfl
    exact ⟨c, hc, (hcases 1709280000000 1709290800000 rfl rfl).2.2.1 (by norm_num)⟩

/-! ## Degenerate data (C3) -/

/-- C3, as stated, fails: the first update after construction with a single record
completes, and the unit, "hour" in the constructed chart, is "minute" after it. -/
theorem single_record_resets_unit :
    initialChart.options.x.unit = "hour" ∧
    (mounted ecma elSingle fresh).thrown = none ∧
    (mounted ecma elSingle fresh).hook.chart.map (fun c => c.options.x.unit) = some "minute" := by
  have hp : handleUpdateArgs ecma elSingle
      = .ok ⟨[⟨.ms 1709280000000⟩], [some (.num 5 1)], [none], [none], [some (.num 12 1)],
          "line"⟩ := rfl
  refine ⟨rfl, ?_, ?_⟩
  · simp [mounted, createChart, handleUpdate, hp, updateChart, setData, initialChart]
  · simp [mounted, createChart, handleUpdate, hp, updateChart, setData, initialChart, index,
      toNumber, JsNum.sub, JsNum.div, timeUnitOf, JsNum.gt]
    norm_num

theorem timeUnitOf_same (d : JsDate) : timeUnitOf (spanDays d d) = "minute" := by
  cases h : d.time with
  | nan => simp [spanDays, toNumber, h, JsNum.sub, JsNum.div, timeUnitOf, JsNum.gt]
  | ms t =>
    simp [spanDays, toNumber, h, JsNum.sub, JsNum.div, timeUnitOf, JsNum.gt]
    norm_num

/-- C3 amended: for every constructed chart and every update whose decoded
collection has zero or one record (a record is a non-null item on whose `timestamp`
value `new Date` does not throw), the update does not fail and the x-axis time unit
after it is "minute", whatever the unit was before. -/
theorem degenerate_data_gives_minute (B : Builtins) (el : El) (self : Hook)
    (records : List Json) (hc : Constructed self) (hdec : Decodes B el records)
    (hlen : records.length ≤ 1) :
    (handleUpdate B el self).thrown = none ∧
    ∃ c', (handleUpdate B el self).hook.chart = some c' ∧ c'.options.x.unit = "minute" := by
  obtain ⟨hthrown, c', hchart, hunit⟩ := handleUpdate_unit B el self records hc hdec
  refine ⟨hthrown, c', hchart, ?_⟩
  rcases records with _ | ⟨r, _ | ⟨r2, rest⟩⟩
  · rw [hunit]
    simp [toNumber, JsNum.sub, JsNum.div, timeUnitOf, JsNum.gt]
  · obtain ⟨d, hd⟩ :=
      Option.isSome_iff_exists.mp (decodes_some B el [r] hdec r (List.mem_singleton_self r))
    rw [hunit]
    simp only [List.filterMap_cons, hd, List.filterMap_nil, List.head?_cons,
      List.getLast?_singleton]
    exact timeUnitOf_same d
  · simp at hlen

/-- Witness of C3 amended: the single record of `elSingle`, on the mounted chart. -/
theorem degenerate_data_gives_minute_witness :
    Decodes ecma elSingle [singleRecord] ∧
    (handleUpdate ecma elSingle mountedHook).thrown = none ∧
    ∃ c', (handleUpdate ecma elSingle mountedHook).hook.chart = some c' ∧
      c'.options.x.unit = "minute" :=
  ⟨single_decodes,
    degenerate_data_gives_minute ecma elSingle mountedHook [singleRecord]
      mountedHook_constructed single_decodes (by decide)⟩


/-! ## Idempotence (C4) -/

theorem updateChart_idem (timestamps : List JsDate)
    (oeeData availabilityData performanceData qualityData : List (Option Json))
    (chartType : String) (self : Hook) :
    (updateChart timestamps oeeData availabilityData performanceData qualityData chartType
      (updateChart timestamps oeeData availabilityData performanceData qualityData chartType
        self).hook).hook.chart
      = (updateChart timestamps oeeData availabilityData performanceData qualityData chartType
          self).hook.chart ∧
    (updateChart timestamps oeeData availabilityData performanceData qualityData chartType
      (updateChart timestamps oeeData availabilityData performanceData qualityData chartType
        self).hook).thrown
      = (updateChart timestamps oeeData availabilityData performanceData qualityData chartType
          self).thrown := by
  rcases self with ⟨_ | ⟨ty, labels, datasets, options⟩, log⟩
  · simp [updateChart]
  · rcases datasets with _ | ⟨d0, _ | ⟨d1, _ | ⟨d2, _ | ⟨d3, rest⟩⟩⟩⟩ <;>
      by_cases ht : ty = chartType <;> simp [updateChart, setData, ht]

/-- C4: for every chart state (constructed or not) and every payload, running
`handleUpdate` a second time with the same payload leaves the chart exactly as the
first run left it (same kind, unit, labels and series buffers, nothing accumulated),
and ends the same way (completes, or throws the same exception). -/
theorem update_idempotent (B : Builtins) (el : El) (self : Hook) :
    (handleUpdate B el (handleUpdate B el self).hook).hook.chart
      = (handleUpdate B el self).hook.chart ∧
    (handleUpdate B el (handleUpdate B el self).hook).thrown
      = (handleUpdate B el self).thrown := by
  cases h : handleUpdateArgs B el with
  | error e => simp [handleUpdate, h]
  | ok a =>
    simp only [handleUpdate, h]
    exact updateChart_idem _ _ _ _ _ _ self


/-! ## The equal-length invariant (C5) -/

theorem handleUpdateArgs_lengths (B : Builtins) (el : El) (a : UpdateArgs)
    (h : handleUpdateArgs B el = .ok a) :
    a.oeeData.length = a.timestamps.length ∧ a.availabilityData.length = a.timestamps.length ∧
    a.performanceData.length = a.timestamps.length ∧
    a.qualityData.length = a.timestamps.length := by
  cases hp : B.jsonParse (orDefault el.intervals "[]") with
  | error e => simp [handleUpdateArgs, hp] at h
  | ok v =>
    cases v with
    | arr items =>
      simp only [handleUpdateArgs, hp, arrayMap] at h
      cases h0 : mapItems (timestampCallback B) items with
      | error e => simp [h0] at h
      | ok ts =>
        cases h1 : mapItems (fun i => getField i "oee") items with
        | error e => simp [h0, h1] at h
        | ok o =>
          cases h2 : mapItems (fun i => getField i "availability") items with
          | error e => simp [h0, h1, h2] at h
          | ok av =>
            cases h3 : mapItems (fun i => getField i "performance") items with
            | error e => simp [h0, h1, h2, h3] at h
            | ok p =>
              cases h4 : mapItems (fun i => getField i "quality") items with
              | error e => simp [h0, h1, h2, h3, h4] at h
              | ok q =>
                simp [h0, h1, h2, h3, h4] at h
                subst h
                simp [mapItems_length _ _ _ h0, mapItems_length _ _ _ h1,
                  mapItems_length _ _ _ h2, mapItems_length _ _ _ h3, mapItems_length _ _ _ h4]
    | null => simp [handleUpdateArgs, hp, arrayMap] at h
    | bool b => simp [handleUpdateArgs, hp, arrayMap] at h
    | num m e => simp [handleUpdateArgs, hp, arrayMap] at h
    | str s => simp [handleUpdateArgs, hp, arrayMap] at h
    | obj kvs => simp [handleUpdateArgs, hp, arrayMap] at h

theorem handleUpdate_equalLength (B : Builtins) (el : El) (self : Hook)
    (h : EqualLength self) : EqualLength (handleUpdate B el self).hook := by
  cases ha : handleUpdateArgs B el with
  | error e => simpa [handleUpdate, ha] using h
  | ok a =>
    obtain ⟨l1, l2, l3, l4⟩ := handleUpdateArgs_lengths B el a ha
    simp only [handleUpdate, ha]
    cases hc : self.chart with
    | none =>
      intro c hc'
      simp [updateChart, hc] at hc'
    | some c =>
      obtain ⟨d0, d1, d2, d3, hd⟩ := datasets_of_length_four c.datasets (h c hc).1
      rw [updateChart_constructed _ _ _ _ _ _ self c d0 d1 d2 d3 hc hd]
      intro c' hc'
      simp only [Option.some.injEq] at hc'
      subst hc'
      simp [l1, l2, l3, l4]

theorem step_equalLength (B : Builtins) (call : Call) (self : Hook) (h : EqualLength self) :
    EqualLength (step B call self).hook := by
  cases call with
  | mounted el =>
    apply handleUpdate_equalLength
    intro c hc
    simp only [createChart, Option.some.injEq] at hc
    subst hc
    simp [initialChart]
  | updated el => exact handleUpdate_equalLength B el self h
  | destroyed =>
    cases hc : self.chart with
    | none => simpa [step, destroyed, hc] using h
    | some c =>
      intro c' hc'
      simp [step, destroyed, hc] at hc'
      exact h c' (hc' ▸ hc)

theorem run_equalLength (B : Builtins) :
    ∀ (calls : List Call) (self : Hook), EqualLength self → EqualLength (run B calls self)
  | [], _, h => h
  | call :: calls, self, h =>
    run_equalLength B calls _ (step_equalLength B call self h)

theorem fresh_equalLength : EqualLength fresh := by
  intro c hc
  simp [fresh] at hc

/-- C5: the chart `createChart` builds has empty labels and four empty data
buffers; after every serialized sequence of `mounted` / `updated` / `destroyed`
calls, with any payloads (failing calls included), the chart held by the hook has
four datasets whose data buffers all have the length of the label sequence; and an
update of a constructed chart whose payload decodes to a collection of records (a
record is a non-null item on whose `timestamp` value `new Date` does not throw)
completes, that common length being then the number of records of the collection
just applied. -/
theorem equal_length_invariant (B : Builtins) :
    (∀ self, (createChart self).1.labels.length = 0 ∧
      ∀ ds ∈ (createChart self).1.datasets, ds.data.length = 0) ∧
    (∀ calls c, (run B calls fresh).chart = some c →
      c.datasets.length = 4 ∧ ∀ ds ∈ c.datasets, ds.data.length = c.labels.length) ∧
    (∀ self el records, Constructed self → Decodes B el records →
      (handleUpdate B el self).thrown = none ∧
      ∃ c, (handleUpdate B el self).hook.chart = some c ∧ c.labels.length = records.length ∧
        ∀ ds ∈ c.datasets, ds.data.length = records.length) := by
  refine ⟨?_, ?_, ?_⟩
  · intro self
    simp [createChart, initialChart]
  · intro calls c hc
    exact run_equalLength B calls fresh fresh_equalLength c hc
  · intro self el records hcon hdec
    obtain ⟨c, hc, h4⟩ := hcon
    obtain ⟨d0, d1, d2, d3, hd⟩ := datasets_of_length_four c.datasets h4
    simp only [handleUpdate, handleUpdateArgs_of_decodes B el records hdec,
      updateChart_constructed _ _ _ _ _ _ self c d0 d1 d2 d3 hc hd]
    refine ⟨trivial, _, rfl, ?_, ?_⟩ <;>
      simp [filterMap_length_of_some _ records (decodes_some B el records hdec)]

/-- Witness of C5: after `mounted` with two records and a failing `updated`, an
update with the three records of `elThreeHours` leaves labels and all data buffers
at length three. -/
theorem equal_length_invariant_witness :
    Constructed (run ecma [.mounted elTenDays, .updated elMalformed] fresh) ∧
    Decodes ecma elThreeHours threeHoursRecords ∧
    ∃ c, (handleUpdate ecma elThreeHours
        (run ecma [.mounted elTenDays, .updated elMalformed] fresh)).hook.chart = some c ∧
      c.labels.length = 3 ∧ ∀ ds ∈ c.datasets, ds.data.length = 3 :=
  have hc : Constructed (run ecma [.mounted elTenDays, .updated elMalformed] fresh) :=
    ⟨_, rfl, rfl⟩
  have hd : Decodes ecma elThreeHours threeHoursRecords := threeHours_decodes
  ⟨hc, hd, ((equal_length_invariant ecma).2.2 _ elThreeHours threeHoursRecords hc hd).2⟩


/-! ## Undecodable payloads (C6) -/

theorem mapItems_null {α : Type} (f : Json → Except JsError α)
    (hf : f .null = .error .typeError)
    (hok : ∀ i, f i = .error .typeError ∨ ∃ a, f i = .ok a) :
    ∀ items : List Json, Json.null ∈ items → mapItems f items = .error .typeError
  | [], h => by simp at h
  | i :: rest, h => by
    rcases hok i with he | ⟨a, ha⟩
    · simp [mapItems, he]
    · have hrest : Json.null ∈ rest := by
        rcases List.mem_cons.mp h with h | h
        · rw [← h, hf] at ha
          exact absurd ha (by simp)
        · exact h
      simp [mapItems, ha, mapItems_null f hf hok rest hrest]

theorem timestampCallback_cases (B : Builtins) (i : Json) :
    timestampCallback B i = .error .typeError ∨ ∃ d, timestampCallback B i = .ok d := by
  cases i with
  | null => exact Or.inl (by simp [timestampCallback, getField])
  | bool b =>
    cases h : B.newDate none with
    | none => exact Or.inl (by simp [timestampCallback, getField, h])
    | some d => exact Or.inr ⟨d, by simp [timestampCallback, getField, h]⟩
  | num m e =>
    cases h : B.newDate none with
    | none => exact Or.inl (by simp [timestampCallback, getField, h])
    | some d => exact Or.inr ⟨d, by simp [timestampCallback, getField, h]⟩
  | str s =>
    cases h : B.newDate none with
    | none => exact Or.inl (by simp [timestampCallback, getField, h])
    | some d => exact Or.inr ⟨d, by simp [timestampCallback, getField, h]⟩
  | arr xs =>
    cases h : B.newDate none with
    | none => exact Or.inl (by simp [timestampCallback, getField, h])
    | some d => exact Or.inr ⟨d, by simp [timestampCallback, getField, h]⟩
  | obj kvs =>
    cases h : B.newDate (kvs.reverse.lookup "timestamp") with
    | none => exact Or.inl (by simp [timestampCallback, getField, h])
    | some d => exact Or.inr ⟨d, by simp [timestampCallback, getField, h]⟩

theorem handleUpdate_of_args_error (B : Builtins) (el : El) (self : Hook) (e : JsError)
    (h : handleUpdateArgs B el = .error e) : handleUpdate B el self = ⟨self, some e⟩ := by
  simp [handleUpdate, h]

theorem mountedHook_eq :
    mountedHook =
      ⟨some { initialChart with options := { initialChart.options with
          x := { initialChart.options.x with unit := "minute" } } },
        [.construct, .update "none"]⟩ := by
  have ha : handleUpdateArgs ecma elAbsent = .ok ⟨[], [], [], [], [], "line"⟩ := rfl
  simp [mountedHook, mounted, createChart, handleUpdate, ha, updateChart, setData,
    initialChart, index, toNumber, JsNum.sub, JsNum.div, timeUnitOf, JsNum.gt, fresh]

/-- C6, as stated, fails: on the mounted chart the payload "not-json" makes
`handleUpdate` throw the `SyntaxError` of `JSON.parse`, whereas the payload "[]"
completes. -/
theorem malformed_payload_not_recovered :
    (handleUpdate ecma elMalformed mountedHook).thrown = some .malformedJson ∧
    (handleUpdate ecma elBar mountedHook).thrown = none := by
  constructor
  · rfl
  · have hp : handleUpdateArgs ecma elBar = .ok ⟨[], [], [], [], [], "bar"⟩ := rfl
    simp [handleUpdate, hp, updateChart, mountedHook_eq, setData, initialChart]

/-- C6 amended: a payload that cannot be decoded as a record collection makes
`handleUpdate` throw, with the hook and its chart left exactly as they were (so the
chart kind, like the unit, labels and series, keeps its previous value): the
exception of `JSON.parse` when the text is not JSON, a `TypeError` when the decoded
value is not an array or the array holds a `null`.  An absent or empty `intervals`
attribute is treated as the payload "[]", and on a constructed chart that payload
completes with empty labels and four empty series. -/
theorem malformed_payload_throws (B : Builtins) (self : Hook) (kind : Option String) :
    (∀ text e, text ≠ "" → B.jsonParse text = .error e →
      handleUpdate B ⟨some text, kind⟩ self = ⟨self, some e⟩) ∧
    (∀ text v, text ≠ "" → B.jsonParse text = .ok v → (∀ items, v ≠ .arr items) →
      handleUpdate B ⟨some text, kind⟩ self = ⟨self, some .typeError⟩) ∧
    (∀ text items, text ≠ "" → B.jsonParse text = .ok (.arr items) → Json.null ∈ items →
      handleUpdate B ⟨some text, kind⟩ self = ⟨self, some .typeError⟩) ∧
    handleUpdate B ⟨none, kind⟩ self = handleUpdate B ⟨some "[]", kind⟩ self ∧
    handleUpdate B ⟨some "", kind⟩ self = handleUpdate B ⟨some "[]", kind⟩ self ∧
    (B.jsonParse "[]" = .ok (.arr []) → Constructed self →
      (handleUpdate B ⟨some "[]", kind⟩ self).thrown = none ∧
      ∃ c, (handleUpdate B ⟨some "[]", kind⟩ self).hook.chart = some c ∧ c.labels = [] ∧
        ∀ ds ∈ c.datasets, ds.data = []) := by
  refine ⟨?_, ?_, ?_, ?_, ?_, ?_⟩
  · intro text e hne hp
    apply handleUpdate_of_args_error
    simp [handleUpdateArgs, orDefault, hne, hp]
  · intro text v hne hp hv
    apply handleUpdate_of_args_error
    cases v with
    | arr items => exact absurd rfl (hv items)
    | null => simp [handleUpdateArgs, orDefault, hne, hp, arrayMap]
    | bool b => simp [handleUpdateArgs, orDefault, hne, hp, arrayMap]
    | num m e => simp [handleUpdateArgs, orDefault, hne, hp, arrayMap]
    | str s => simp [handleUpdateArgs, orDefault, hne, hp, arrayMap]
    | obj kvs => simp [handleUpdateArgs, orDefault, hne, hp, arrayMap]
  · intro text items hne hp hnull
    apply handleUpdate_of_args_error
    have h0 : mapItems (timestampCallback B) items = .error .typeError :=
      mapItems_null _ (by simp [timestampCallback, getField]) (timestampCallback_cases B)
        items hnull
    simp [handleUpdateArgs, orDefault, hne, hp, arrayMap, h0]
  · simp [handleUpdate, handleUpdateArgs, orDefault]
  · simp [handleUpdate, handleUpdateArgs, orDefault]
  · intro hp hcon
    have hdec : Decodes B ⟨some "[]", kind⟩ [] :=
      empty_decodes B _ (by simpa [orDefault] using hp)
    obtain ⟨c, hc, h4⟩ := hcon
    obtain ⟨d0, d1, d2, d3, hd⟩ := datasets_of_length_four c.datasets h4
    simp only [handleUpdate, handleUpdateArgs_of_decodes B _ [] hdec,
      updateChart_constructed _ _ _ _ _ _ self c d0 d1 d2 d3 hc hd]
    refine ⟨trivial, _, rfl, ?_, ?_⟩ <;> simp

/-- Witness of C6 amended: "not-json" on the mounted chart throws and leaves the hook
as it was; "[]" completes with empty labels. -/
theorem malformed_payload_throws_witness :
    handleUpdate ecma elMalformed mountedHook = ⟨mountedHook, some .malformedJson⟩ ∧
    (handleUpdate ecma elBar mountedHook).thrown = none ∧
    ∃ c, (handleUpdate ecma elBar mountedHook).hook.chart = some c ∧ c.labels = [] ∧
      ∀ ds ∈ c.datasets, ds.data = [] :=
  ⟨(malformed_payload_throws ecma mountedHook (some "bar")).1 "not-json" .malformedJson
      (by decide) rfl,
    (malformed_payload_throws ecma mountedHook (some "bar")).2.2.2.2.2 rfl
      mountedHook_constructed⟩


/-! ## Chart kind (C7) -/

theorem handleUpdate_log (B : Builtins) (el : El) (self : Hook) :
    (handleUpdate B el self).hook.log = self.log ∨
    (handleUpdate B el self).hook.log = self.log ++ [.update "none"] := by
  cases ha : handleUpdateArgs B el with
  | error e => simp [handleUpdate, ha]
  | ok a =>
    rcases self with ⟨_ | ⟨ty, labels, datasets, options⟩, log⟩
    · simp [handleUpdate, ha, updateChart]
    · rcases datasets with _ | ⟨d0, _ | ⟨d1, _ | ⟨d2, _ | ⟨d3, rest⟩⟩⟩⟩ <;>
        by_cases ht : ty = a.chartType <;> simp [handleUpdate, ha, updateChart, setData, ht]

theorem handleUpdateArgs_chartType (B : Builtins) (el : El) (a : UpdateArgs)
    (h : handleUpdateArgs B el = .ok a) : a.chartType = orDefault el.type "line" := by
  cases hp : B.jsonParse (orDefault el.intervals "[]") with
  | error e => simp [handleUpdateArgs, hp] at h
  | ok v =>
    simp only [handleUpdateArgs, hp] at h
    cases h0 : arrayMap v (timestampCallback B) with
    | error e => simp [h0] at h
    | ok ts =>
      cases h1 : arrayMap v (fun i => getField i "oee") with
      | error e => simp [h0, h1] at h
      | ok o =>
        cases h2 : arrayMap v (fun i => getField i "availability") with
        | error e => simp [h0, h1, h2] at h
        | ok av =>
          cases h3 : arrayMap v (fun i => getField i "performance") with
          | error e => simp [h0, h1, h2, h3] at h
          | ok p =>
            cases h4 : arrayMap v (fun i => getField i "quality") with
            | error e => simp [h0, h1, h2, h3, h4] at h
            | ok q =>
              simp [h0, h1, h2, h3, h4] at h
              simp [← h]

theorem handleUpdate_constructed (B : Builtins) (el : El) (self : Hook)
    (h : Constructed self) : Constructed (handleUpdate B el self).hook := by
  obtain ⟨c, hc, h4⟩ := h
  obtain ⟨d0, d1, d2, d3, hd⟩ := datasets_of_length_four c.datasets h4
  cases ha : handleUpdateArgs B el with
  | error e => exact ⟨c, by simp [handleUpdate, ha, hc], h4⟩
  | ok a =>
    simp only [handleUpdate, ha,
      updateChart_constructed _ _ _ _ _ _ self c d0 d1 d2 d3 hc hd]
    exact ⟨_, rfl, rfl⟩

theorem handleUpdate_constructCount (B : Builtins) (el : El) (self : Hook) :
    constructCount (handleUpdate B el self).hook.log = constructCount self.log ∧
    destroyCount (handleUpdate B el self).hook.log = destroyCount self.log := by
  rcases handleUpdate_log B el self with h | h <;>
    simp [h, constructCount, destroyCount, List.count_append]

theorem run_updates_constructCount (B : Builtins) :
    ∀ (els : List El) (self : Hook),
      constructCount (run B (els.map Call.updated) self).log = constructCount self.log
  | [], _ => rfl
  | el :: els, self => by
    simp only [List.map, run, step, updated]
    rw [run_updates_constructCount B els, (handleUpdate_constructCount B el self).1]

/-- C7, as stated, fails: on the mounted chart, of kind "line", the update that
requests "bar" with the intervals payload "not-json" throws before the kind is
assigned, and the kind after it is still "line". -/
theorem failed_update_keeps_kind :
    orDefault elMalformed.type "line" = "bar" ∧
    mountedHook.chart.map (fun c => c.type) = some "line" ∧
    (handleUpdate ecma elMalformed mountedHook).hook.chart.map (fun c => c.type)
      = some "line" := by
  have h : handleUpdate ecma elMalformed mountedHook = ⟨mountedHook, some .malformedJson⟩ :=
    rfl
  refine ⟨by decide, ?_, ?_⟩
  · simp [mountedHook_eq, initialChart]
  · rw [h]
    simp [mountedHook_eq, initialChart]

/-- C7 amended: for every constructed chart and every update that completes, the
chart's kind after the update is the requested kind (the `type` attribute, or "line"
when it is absent or empty); an update that throws leaves the hook as it was, kind
included.  No update, completed or not, issues a construct or a destroy call: the
engine log is unchanged or extended by one redraw.  Over `mounted` followed by any
number of `updated` calls the engine's construct is called exactly once. -/
theorem chart_kind_switched_in_place (B : Builtins) (el : El) (self : Hook) :
    (Constructed self → (handleUpdate B el self).thrown = none →
      ∃ c', (handleUpdate B el self).hook.chart = some c' ∧
        c'.type = orDefault el.type "line") ∧
    (Constructed self → (handleUpdate B el self).thrown ≠ none →
      (handleUpdate B el self).hook = self) ∧
    ((handleUpdate B el self).hook.log = self.log ∨
      (handleUpdate B el self).hook.log = self.log ++ [.update "none"]) ∧
    (constructCount (handleUpdate B el self).hook.log = constructCount self.log ∧
      destroyCount (handleUpdate B el self).hook.log = destroyCount self.log) ∧
    (∀ els : List El,
      constructCount (run B (.mounted el :: els.map Call.updated) fresh).log = 1) := by
  refine ⟨?_, ?_, handleUpdate_log B el self, handleUpdate_constructCount B el self, ?_⟩
  · intro hcon hthrown
    obtain ⟨c, hc, h4⟩ := hcon
    obtain ⟨d0, d1, d2, d3, hd⟩ := datasets_of_length_four c.datasets h4
    cases ha : handleUpdateArgs B el with
    | error e => simp [handleUpdate, ha] at hthrown
    | ok a =>
      have hty : a.chartType = orDefault el.type "line" := handleUpdateArgs_chartType B el a ha
      simp only [handleUpdate, ha,
        updateChart_constructed _ _ _ _ _ _ self c d0 d1 d2 d3 hc hd]
      exact ⟨_, rfl, hty⟩
  · intro hcon hthrown
    obtain ⟨c, hc, h4⟩ := hcon
    obtain ⟨d0, d1, d2, d3, hd⟩ := datasets_of_length_four c.datasets h4
    cases ha : handleUpdateArgs B el with
    | error e => simp [handleUpdate, ha]
    | ok a =>
      simp [handleUpdate, ha,
        updateChart_constructed _ _ _ _ _ _ self c d0 d1 d2 d3 hc hd] at hthrown
  · intro els
    simp only [run, step, mounted, createChart]
    rw [run_updates_constructCount B els, (handleUpdate_constructCount B el _).1]
    simp [fresh, constructCount]

/-- Witness of C7 amended: on the mounted chart an update requesting "line" and then
one requesting "bar" both complete, the kind going from "line" to "bar", and the
whole run holds exactly one construct call. -/
theorem chart_kind_switched_in_place_witness :
    (∃ c, (handleUpdate ecma elTenDays mountedHook).hook.chart = some c ∧ c.type = "line") ∧
    (∃ c, (handleUpdate ecma elBar (handleUpdate ecma elTenDays mountedHook).hook).hook.chart
        = some c ∧ c.type = "bar") ∧
    constructCount
      (run ecma (.mounted elAbsent :: [elTenDays, elBar].map Call.updated) fresh).log = 1 := by
  have hd1 : Decodes ecma elTenDays tenDaysRecords := tenDays_decodes
  have h1 := handleUpdate_unit ecma elTenDays mountedHook tenDaysRecords
    mountedHook_constructed hd1
  have hc2 : Constructed (handleUpdate ecma elTenDays mountedHook).hook :=
    handleUpdate_constructed ecma elTenDays mountedHook mountedHook_constructed
  have hd2 : Decodes ecma elBar [] := empty_decodes ecma elBar rfl
  have h2 := handleUpdate_unit ecma elBar _ [] hc2 hd2
  exact ⟨(chart_kind_switched_in_place ecma elTenDays mountedHook).1
      mountedHook_constructed h1.1,
    (chart_kind_switched_in_place ecma elBar _).1 hc2 h2.1,
    (chart_kind_switched_in_place ecma elAbsent fresh).2.2.2.2 [elTenDays, elBar]⟩


/-! ## After `destroyed()` (C8) -/

/-- C8 fails on the code: `destroyed()` calls `chart.destroy()` and leaves
`this.chart` set, so the guards on `this.chart` do not see the destroyed state.  After
`mounted()` and `destroyed()`, an `updated()` with one record and kind "bar" completes,
changes the kind from "line" to "bar" and the labels from none to one, and issues one
more redraw call; a second `destroyed()` issues one more destroy call. -/
theorem update_after_destroy_mutates :
    destroyedHook.chart = mountedHook.chart ∧
    destroyedHook.log = [.construct, .update "none", .destroy] ∧
    destroyedHook.chart.map (fun c => (c.type, c.labels.length)) = some ("line", 0) ∧
    (updated ecma elBarSingle destroyedHook).thrown = none ∧
    (updated ecma elBarSingle destroyedHook).hook.chart.map (fun c => (c.type, c.labels.length))
      = some ("bar", 1) ∧
    (updated ecma elBarSingle destroyedHook).hook.log
      = [.construct, .update "none", .destroy, .update "none"] ∧
    (destroyed destroyedHook).thrown = none ∧
    (destroyed destroyedHook).hook.log = [.construct, .update "none", .destroy, .destroy] := by
  have hd : destroyedHook =
      ⟨some { initialChart with options := { initialChart.options with
          x := { initialChart.options.x with unit := "minute" } } },
        [.construct, .update "none", .destroy]⟩ := by
    simp [destroyedHook, destroyed, mountedHook_eq]
  have hp : handleUpdateArgs ecma elBarSingle
      = .ok ⟨[⟨.ms 1709280000000⟩], [some (.num 5 1)], [none], [none], [some (.num 12 1)],
          "bar"⟩ := rfl
  refine ⟨?_, ?_, ?_, ?_, ?_, ?_, ?_, ?_⟩
  · simp [hd, mountedHook_eq]
  · simp [hd]
  · simp [hd, initialChart]
  · simp [updated, handleUpdate, hp, updateChart, hd, setData, initialChart]
  · simp [updated, handleUpdate, hp, updateChart, hd, setData, initialChart]
  · simp [updated, handleUpdate, hp, updateChart, hd, setData, initialChart]
  · simp [destroyed, hd]
  · simp [destroyed, hd]

/-! ## No constructed chart (C9) -/

/-- C9, as stated, fails: with no chart constructed, `updated()` on the payload
"not-json" throws the `SyntaxError` of `JSON.parse`, which runs before the guard on
`this.chart`. -/
theorem update_without_chart_throws :
    fresh.chart.isNone = true ∧
    (updated ecma elMalformed fresh).thrown = some .malformedJson :=
  ⟨rfl, rfl⟩

theorem mapItems_ok_forall {α : Type} (f : Json → Except JsError α) :
    ∀ (items : List Json) (out : List α), mapItems f items = .ok out →
      ∀ i ∈ items, ∃ a, f i = .ok a
  | [], _, _, i, hi => by simp at hi
  | x :: rest, out, h, i, hi => by
    simp only [mapItems] at h
    cases hf : f x with
    | error e => simp [hf] at h
    | ok a =>
      cases hr : mapItems f rest with
      | error e => simp [hf, hr] at h
      | ok as =>
        rcases List.mem_cons.mp hi with hx | hx
        · exact ⟨a, by rw [hx, hf]⟩
        · exact mapItems_ok_forall f rest as hr i hx

theorem timestampCallback_ok (B : Builtins) (i : Json) (d : JsDate)
    (h : timestampCallback B i = .ok d) : i ≠ Json.null ∧ (timestampOf B i).isSome = true := by
  have hne : i ≠ Json.null := by
    intro hi
    subst hi
    simp [timestampCallback, getField] at h
  refine ⟨hne, ?_⟩
  simp only [timestampCallback, getField_of_ne_null i "timestamp" hne] at h
  cases hd : B.newDate (field i "timestamp") with
  | none => simp [hd] at h
  | some d' => simp [timestampOf, hd]

/-- The arguments of `updateChart` are built exactly for the payloads that decode to
a collection of records. -/
theorem handleUpdateArgs_ok_iff (B : Builtins) (el : El) :
    (∃ a, handleUpdateArgs B el = .ok a) ↔ ∃ records, Decodes B el records := by
  constructor
  · rintro ⟨a, h⟩
    cases hp : B.jsonParse (orDefault el.intervals "[]") with
    | error e => simp [handleUpdateArgs, hp] at h
    | ok v =>
      cases v with
      | arr items =>
        simp only [handleUpdateArgs, hp, arrayMap] at h
        cases h0 : mapItems (timestampCallback B) items with
        | error e => simp [h0] at h
        | ok ts =>
          refine ⟨items, hp, ?_⟩
          intro r hr
          obtain ⟨d, hd⟩ := mapItems_ok_forall _ items ts h0 r hr
          exact timestampCallback_ok B r d hd
      | null => simp [handleUpdateArgs, hp, arrayMap] at h
      | bool b => simp [handleUpdateArgs, hp, arrayMap] at h
      | num m e => simp [handleUpdateArgs, hp, arrayMap] at h
      | str s => simp [handleUpdateArgs, hp, arrayMap] at h
      | obj kvs => simp [handleUpdateArgs, hp, arrayMap] at h
  · rintro ⟨records, hdec⟩
    exact ⟨_, handleUpdateArgs_of_decodes B el records hdec⟩

/-- On the mounted chart, a payload with a record whose timestamp is an object with
an own `toString` member makes `handleUpdate` throw the `TypeError` of `new Date`, the
hook being left as it was: such a payload does not decode to a record collection. -/
theorem bad_timestamp_throws :
    handleUpdate ecma elBadTimestamp mountedHook = ⟨mountedHook, some .typeError⟩ ∧
    handleUpdate ecma elBadInterior mountedHook = ⟨mountedHook, some .typeError⟩ ∧
    (¬ ∃ records, Decodes ecma elBadTimestamp records) ∧
    (¬ ∃ records, Decodes ecma elBadInterior records) := by
  have h1 : handleUpdateArgs ecma elBadTimestamp = .error .typeError := rfl
  have h2 : handleUpdateArgs ecma elBadInterior = .error .typeError := rfl
  refine ⟨handleUpdate_of_args_error _ _ _ _ h1, handleUpdate_of_args_error _ _ _ _ h2, ?_, ?_⟩
  · intro h
    obtain ⟨a, ha⟩ := (handleUpdateArgs_ok_iff ecma elBadTimestamp).mpr h
    rw [h1] at ha
    exact absurd ha (by simp)
  · intro h
    obtain ⟨a, ha⟩ := (handleUpdateArgs_ok_iff ecma elBadInterior).mpr h
    rw [h2] at ha
    exact absurd ha (by simp)

/-- C9 amended: on a hook with no chart, for every payload `updated()` /
`handleUpdate` leaves the hook as it was, engine log included (no state change, no
engine call); it completes exactly when the payload decodes to a collection of
records (an array of non-null items on whose `timestamp` values `new Date` does not
throw) and otherwise throws the exception of the decoding, which runs before the guard
on `this.chart`; `destroyed()` completes and leaves the hook as it was. -/
theorem no_chart_calls (B : Builtins) (el : El) (self : Hook) (h : self.chart = none) :
    (updated B el self).hook = self ∧
    (handleUpdate B el self).hook = self ∧
    (∀ records, Decodes B el records → (updated B el self).thrown = none) ∧
    ((updated B el self).thrown = none → ∃ records, Decodes B el records) ∧
    (∀ e, handleUpdateArgs B el = .error e → (updated B el self).thrown = some e) ∧
    (∀ e, B.jsonParse (orDefault el.intervals "[]") = .error e →
      (updated B el self).thrown = some e) ∧
    destroyed self = ⟨self, none⟩ := by
  have hu : ∀ a : UpdateArgs,
      updateChart a.timestamps a.oeeData a.availabilityData a.performanceData a.qualityData
        a.chartType self = ⟨self, none⟩ := by
    intro a
    simp [updateChart, h]
  have hhook : (handleUpdate B el self).hook = self := by
    cases ha : handleUpdateArgs B el with
    | error e => simp [handleUpdate, ha]
    | ok a => simp [handleUpdate, ha, hu]
  refine ⟨hhook, hhook, ?_, ?_, ?_, ?_, ?_⟩
  · intro records hdec
    simp [updated, handleUpdate, handleUpdateArgs_of_decodes B el records hdec, updateChart, h]
  · intro hthrown
    cases ha : handleUpdateArgs B el with
    | error e => simp [updated, handleUpdate, ha] at hthrown
    | ok a => exact (handleUpdateArgs_ok_iff B el).mp ⟨a, ha⟩
  · intro e he
    simp [updated, handleUpdate, he]
  · intro e he
    simp [updated, handleUpdate, handleUpdateArgs, he]
  · simp [destroyed, h]

/-- Witness of C9 amended: on the fresh hook, `updated()` with the two records of
`elTenDays` completes and changes nothing, `updated()` with "not-json" throws the
`SyntaxError` and `updated()` with a record whose timestamp is no primitive throws the
`TypeError`, both changing nothing, and `destroyed()` changes nothing. -/
theorem no_chart_calls_witness :
    (updated ecma elTenDays fresh).hook = fresh ∧
    (updated ecma elTenDays fresh).thrown = none ∧
    (updated ecma elMalformed fresh).hook = fresh ∧
    (updated ecma elMalformed fresh).thrown = some .malformedJson ∧
    (updated ecma elBadTimestamp fresh).hook = fresh ∧
    (updated ecma elBadTimestamp fresh).thrown = some .typeError ∧
    destroyed fresh = ⟨fresh, none⟩ :=
  ⟨(no_chart_calls ecma elTenDays fresh rfl).1,
    (no_chart_calls ecma elTenDays fresh rfl).2.2.1 tenDaysRecords tenDays_decodes,
    (no_chart_calls ecma elMalformed fresh rfl).1,
    (no_chart_calls ecma elMalformed fresh rfl).2.2.2.2.2.1 .malformedJson rfl,
    (no_chart_calls ecma elBadTimestamp fresh rfl).1,
    (no_chart_calls ecma elBadTimestamp fresh rfl).2.2.2.2.1 .typeError rfl,
    (no_chart_calls ecma elMalformed fresh rfl).2.2.2.2.2.2⟩

/-! ## Frame of an update (C10) -/

theorem updateChart_frame (timestamps : List JsDate)
    (oeeData availabilityData performanceData qualityData : List (Option Json))
    (chartType : String) (self : Hook) (c : Chart) (hc : self.chart = some c) :
    ∃ c', (updateChart timestamps oeeData availabilityData performanceData qualityData
        chartType self).hook.chart = some c' ∧
      c'.datasets.map Dataset.style = c.datasets.map Dataset.style ∧
      c'.options.y = c.options.y ∧ c'.options.interaction = c.options.interaction ∧
      c'.options.tooltip = c.options.tooltip ∧ c'.options.responsive = c.options.responsive ∧
      c'.options.maintainAspectRatio = c.options.maintainAspectRatio ∧
      c'.options.legendPosition = c.options.legendPosition ∧
      c'.options.x.type = c.options.x.type ∧ c'.options.x.hourFormat = c.options.x.hourFormat ∧
      c'.options.x.title = c.options.x.title := by
  rcases self with ⟨chart, log⟩
  simp only at hc
  subst hc
  rcases c with ⟨ty, labels, datasets, options⟩
  rcases datasets with _ | ⟨d0, _ | ⟨d1, _ | ⟨d2, _ | ⟨d3, rest⟩⟩⟩⟩ <;>
    by_cases ht : ty = chartType <;> simp [updateChart, setData, ht, Dataset.style]

/-- C10: `createChart` yields exactly four datasets, in the order OEE, Availability,
Performance, Quality, with pairwise distinct border colors and pairwise distinct
background colors and empty data, kind "line", x-axis unit "hour", a y-axis with
`beginAtZero` and `max` 100, and interaction and tooltip mode "index".  For every
hook holding a chart and every payload, after `handleUpdate` (completed or not) the
hook still holds a chart with the same datasets in the same order up to their data
buffers (same number, labels, colors and line style), the same y-axis settings, the
same interaction and tooltip settings and the same remaining options: only the kind,
the x-axis unit, the labels and the data buffers can differ. -/
theorem update_frame (B : Builtins) (el : El) (self : Hook) :
    ((createChart self).1.datasets.map (fun d => d.label)
        = ["OEE", "Availability", "Performance", "Quality"] ∧
      ((createChart self).1.datasets.map (fun d => d.borderColor)).Nodup ∧
      ((createChart self).1.datasets.map (fun d => d.backgroundColor)).Nodup ∧
      (∀ d ∈ (createChart self).1.datasets, d.data = []) ∧
      (createChart self).1.labels = [] ∧
      (createChart self).1.type = "line" ∧
      (createChart self).1.options.x.unit = "hour" ∧
      (createChart self).1.options.y.beginAtZero = true ∧
      (createChart self).1.options.y.max = 100 ∧
      (createChart self).1.options.interaction.mode = "index" ∧
      (createChart self).1.options.tooltip.mode = "index") ∧
    (∀ c, self.chart = some c →
      ∃ c', (handleUpdate B el self).hook.chart = some c' ∧
        c'.datasets.length = c.datasets.length ∧
        c'.datasets.map Dataset.style = c.datasets.map Dataset.style ∧
        c'.options.y = c.options.y ∧ c'.options.interaction = c.options.interaction ∧
        c'.options.tooltip = c.options.tooltip ∧
        c'.options.responsive = c.options.responsive ∧
        c'.options.maintainAspectRatio = c.options.maintainAspectRatio ∧
        c'.options.legendPosition = c.options.legendPosition ∧
        c'.options.x.type = c.options.x.type ∧
        c'.options.x.hourFormat = c.options.x.hourFormat ∧
        c'.options.x.title = c.options.x.title) := by
  constructor
  · simp [createChart, initialChart]
  · intro c hc
    cases ha : handleUpdateArgs B el with
    | error e =>
      exact ⟨c, by simp [handleUpdate, ha, hc], rfl, rfl, rfl, rfl, rfl, rfl, rfl, rfl, rfl,
        rfl, rfl⟩
    | ok a =>
      obtain ⟨c', hc', hstyle, hrest⟩ :=
        updateChart_frame a.timestamps a.oeeData a.availabilityData a.performanceData
          a.qualityData a.chartType self c hc
      refine ⟨c', by simp [handleUpdate, ha, hc'], ?_, hstyle, hrest⟩
      have := congrArg List.length hstyle
      simpa using this

/-- Witness of C10: the update of the mounted chart with the two records of
`elTenDays` keeps the four series labels and the y-axis maximum. -/
theorem update_frame_witness :
    ∃ c', (handleUpdate ecma elTenDays mountedHook).hook.chart = some c' ∧
      c'.datasets.length = 4 ∧
      c'.datasets.map (fun d => d.label) = ["OEE", "Availability", "Performance", "Quality"] ∧
      c'.options.y.max = 100 ∧ c'.options.y.beginAtZero = true := by
  have hm : mountedHook.chart = some
      { initialChart with options := { initialChart.options with
          x := { initialChart.options.x with unit := "minute" } } } := by
    simp [mountedHook_eq]
  obtain ⟨c', hc', hlen, hstyle, hy, _⟩ := (update_frame ecma elTenDays mountedHook).2 _ hm
  refine ⟨c', hc', by simpa [initialChart] using hlen, ?_, by simp [hy, initialChart],
    by simp [hy, initialChart]⟩
  have h := congrArg (List.map (fun s : String × String × String × Nat × ℚ × Bool => s.1)) hstyle
  simpa [List.map_map, Function.comp_def, Dataset.style, initialChart] using h

end OEEChart
